import Mathlib

/-!
# Lua scripting context of the emulator core

A shallow embedding of `Core/Debugger/LuaScriptingContext.cpp`: the sandbox set-up done by
`LuaOpenLibs` and `LoadScript`, the execution watchdog `ExecutionCountHook`, the memory and event
dispatchers `InternalCallMemoryCallback` and `InternalCallEventCallback`, the two unregister
operations and the destructor.

The Lua interpreter is an external collaborator.  Its state is an explicit value (`LuaState`): the
value stack, the script-side state (an abstract type `σ`), the installed count hook, and a record of
the C API calls that are observable from outside (`LuaEvent`).  What a script function does when it
is called is a parameter (`Interp.call`).
-/

namespace Mesen

/-! ## Lua values and the interpreter state -/

/-- Library openers named in the `loadedlibs` table of `LuaOpenLibs`, and those used by
`LoadScript`. -/
inductive LibOpener where
  | luaopen_base
  | luaopen_package
  | luaopen_coroutine
  | luaopen_table
  | luaopen_io
  | luaopen_os
  | luaopen_string
  | luaopen_math
  | luaopen_utf8
  | luaopen_debug
  | luaopen_socket_core
  | luaopen_mime_core
  | LuaApi_GetLibrary
  deriving DecidableEq, Repr

/-- Values that can sit on the Lua stack.  `registryObject ref` is the object anchored in the
registry table under reference `ref` (what `lua_rawgeti(L, LUA_REGISTRYINDEX, ref)` pushes);
`table path` is a library or global table, named by the path it was fetched through. -/
inductive LuaValue where
  | nil
  | boolean (b : Bool)
  | integer (n : Int)
  | str (s : String)
  | registryObject (ref : Int)
  | cfunction (f : LibOpener)
  | table (path : String)
  deriving DecidableEq, Repr

/-- Result of running a script function: the values it returned, or the error it raised.
Modelled from the spec: the engine primitive `call(interpreter, handle, args) ->
Result<List<Value>, ErrorString>` of section 6; the interpreter itself is not part of the
sources. -/
inductive CallOutcome where
  | ok (results : List LuaValue)
  | error (msg : String)
  deriving DecidableEq, Repr

/-- C API calls recorded in the interpreter state, in the order they were made. -/
inductive LuaEvent where
  | requiref (name : String) (opener : LibOpener)
  | setfield (table : LuaValue) (key : String) (value : LuaValue)
  | sethook (count : Nat)
  | pcall (callee : LuaValue) (args : List LuaValue) (outcome : CallOutcome)
  | unref (ref : Int)
  | close
  deriving DecidableEq, Repr

/-- The interpreter instance behind a `lua_State*`.  The top of the stack is the end of the
list, so index `-1` is the last element and `lua_gettop` is the length. -/
structure LuaState (σ : Type) where
  stack : List LuaValue
  script : σ
  hookCount : Option Nat
  events : List LuaEvent

/-- Behaviour of script code, a parameter of the model.  `call s f args` runs the Lua value `f`
on `args` in script state `s` (an error raised by the count hook is an error outcome like any
other); `compile source chunkName` is what `luaL_loadbufferx` produces: the compiled chunk or
an error message. -/
structure Interp (σ : Type) where
  call : σ → LuaValue → List LuaValue → σ × CallOutcome
  compile : String → String → Except String LuaValue

variable {σ : Type}

def lua_gettop (L : LuaState σ) : Nat := L.stack.length

def lua_settop (L : LuaState σ) (n : Nat) : LuaState σ :=
  { L with stack := L.stack.take n ++ List.replicate (n - L.stack.length) LuaValue.nil }

def lua_push (L : LuaState σ) (v : LuaValue) : LuaState σ :=
  { L with stack := L.stack ++ [v] }

def lua_pop (L : LuaState σ) (n : Nat) : LuaState σ :=
  { L with stack := L.stack.take (L.stack.length - n) }

def lua_rawgeti_registry (L : LuaState σ) (ref : Int) : LuaState σ :=
  lua_push L (LuaValue.registryObject ref)

def lua_pushinteger (L : LuaState σ) (n : Int) : LuaState σ :=
  lua_push L (LuaValue.integer n)

def lua_pushcfunction (L : LuaState σ) (f : LibOpener) : LuaState σ :=
  lua_push L (LuaValue.cfunction f)

/-- The value at index `-1`. -/
def lua_top (L : LuaState σ) : LuaValue := L.stack.getLast?.getD LuaValue.nil

def lua_isinteger (v : LuaValue) : Bool :=
  match v with
  | LuaValue.integer _ => true
  | _ => false

def lua_tointeger (v : LuaValue) : Int :=
  match v with
  | LuaValue.integer n => n
  | _ => 0

def lua_isstring (v : LuaValue) : Bool :=
  match v with
  | LuaValue.str _ => true
  | LuaValue.integer _ => true
  | _ => false

/-- The C string `lua_tostring` returns, `none` for the null pointer. -/
def lua_tostring (v : LuaValue) : Option String :=
  match v with
  | LuaValue.str s => some s
  | LuaValue.integer n => some (toString n)
  | _ => none

/-- Adjustment of the results of a call to the number requested; `none` is `LUA_MULTRET`. -/
def adjustResults (rs : List LuaValue) (nresults : Option Nat) : List LuaValue :=
  match nresults with
  | none => rs
  | some n => rs.take n ++ List.replicate (n - rs.length) LuaValue.nil

/-- The protected call `lua_pcall(L, nargs, nresults, 0)`: the callee and its `nargs` arguments
are popped; on success the (adjusted) results are pushed and the status is `0`, on failure the
error message is pushed and the status is non-zero.  The second component is `status != 0`. -/
def lua_pcall (I : Interp σ) (L : LuaState σ) (nargs : Nat) (nresults : Option Nat) :
    LuaState σ × Bool :=
  let base := L.stack.length - (nargs + 1)
  let callee := L.stack.getD base LuaValue.nil
  let args := L.stack.drop (base + 1)
  match I.call L.script callee args with
  | (s, CallOutcome.ok rs) =>
    ({ L with stack := L.stack.take base ++ adjustResults rs nresults, script := s,
              events := L.events ++ [LuaEvent.pcall callee args (CallOutcome.ok rs)] }, false)
  | (s, CallOutcome.error msg) =>
    ({ L with stack := L.stack.take base ++ [LuaValue.str msg], script := s,
              events := L.events ++ [LuaEvent.pcall callee args (CallOutcome.error msg)] }, true)

def lua_sethook (L : LuaState σ) (count : Nat) : LuaState σ :=
  { L with hookCount := some count, events := L.events ++ [LuaEvent.sethook count] }

def luaL_unref (L : LuaState σ) (ref : Int) : LuaState σ :=
  { L with events := L.events ++ [LuaEvent.unref ref] }

def lua_close (L : LuaState σ) : LuaState σ :=
  { L with events := L.events ++ [LuaEvent.close] }

/-- The call `luaL_requiref(L, name, opener, 1)`: the module is loaded, stored in the global
`name`, and left on the stack. -/
def luaL_requiref (L : LuaState σ) (name : String) (opener : LibOpener) : LuaState σ :=
  { L with stack := L.stack ++ [LuaValue.table name],
           events := L.events ++ [LuaEvent.requiref name opener] }

def lua_getglobal (L : LuaState σ) (name : String) : LuaState σ :=
  lua_push L (LuaValue.table name)

/-- The call `lua_getfield(L, -1, k)`. -/
def lua_getfield_top (L : LuaState σ) (k : String) : LuaState σ :=
  match lua_top L with
  | LuaValue.table path => lua_push L (LuaValue.table (path ++ "." ++ k))
  | _ => lua_push L LuaValue.nil

/-- The call `lua_setfield(L, -2, k)`: stores the value on top of the stack in the field `k` of
the table just below it, and pops the value. -/
def lua_setfield_below (L : LuaState σ) (k : String) : LuaState σ :=
  let L1 := lua_pop L 1
  { L1 with events := L1.events ++ [LuaEvent.setfield (lua_top L1) k (lua_top L)] }

/-- What `luaL_newstate()` returns, for a script-side initial state `s`. -/
def luaL_newstate (s : σ) : LuaState σ :=
  { stack := [], script := s, hookCount := none, events := [] }

/-! ## The scripting context -/

inductive CallbackType where
  | CpuRead
  | CpuWrite
  | CpuExec
  deriving DecidableEq, Repr

/-- A registered memory callback: an inclusive address range, the CPU it is bound to (`Type` in
the source, an opaque `CpuType` number) and the registry reference of the script function. -/
structure MemoryCallback where
  StartAddress : Nat
  EndAddress : Nat
  Type_ : Nat
  Reference : Int
  deriving DecidableEq, Repr

/-- The numeric values of the enumerators `EventType::Reset` and `EventType::EventTypeSize`;
`EventType.h` is not among the sources, so they are parameters. -/
structure EventTypeDecl where
  Reset : Nat
  EventTypeSize : Nat

/-- The part of `DebugConfig` read by the scripting context. -/
structure DebugConfig where
  ScriptTimeout : Nat
  ScriptAllowIoOsAccess : Bool
  ScriptAllowNetworkAccess : Bool

/-- State of a `LuaScriptingContext`.  `loaded` is `_lua != nullptr`; `timerResets` counts the calls
of `_timer.Reset()`; `contextIsThis` and `apiContextIsThis` say whether the static `_context`
pointer and the context of `LuaApi` designate this object; `log` is what was passed to `Log`
(`none` for a null pointer); `sandboxAllowLoadfile` is the global `SANDBOX_ALLOW_LOADFILE`. -/
structure LuaScriptingContext (σ : Type) where
  lua : LuaState σ
  loaded : Bool
  callbacks : CallbackType → List MemoryCallback
  eventCallbacks : Nat → List Int
  timerResets : Nat
  contextIsThis : Bool
  apiContextIsThis : Bool
  log : List (Option String)
  sandboxAllowLoadfile : Nat
  scriptName : String
  initDone : Bool

/-! ### Destructor -/

/-- The call `references.emplace(ref)` on the `std::unordered_set<int>`, kept as a list without
repetition (the iteration order of the set is unspecified; no statement below depends on it). -/
def emplace (references : List Int) (ref : Int) : List Int :=
  if ref ∈ references then references else references ++ [ref]

/-- The first loop of the destructor, over `CallbackType::CpuRead .. CallbackType::CpuExec`. -/
def collectMemoryReferences (ctx : LuaScriptingContext σ) (references : List Int) : List Int :=
  [CallbackType.CpuRead, CallbackType.CpuWrite, CallbackType.CpuExec].foldl
    (fun refs i => (ctx.callbacks i).foldl (fun refs callback => emplace refs callback.Reference)
      refs)
    references

/-- The second loop of the destructor, over `EventType::Reset .. EventType::EventTypeSize - 1`. -/
def collectEventReferences (E : EventTypeDecl) (ctx : LuaScriptingContext σ)
    (references : List Int) : List Int :=
  (List.range' E.Reset (E.EventTypeSize - E.Reset)).foldl
    (fun refs i => (ctx.eventCallbacks i).foldl emplace refs)
    references

/-- The destructor `LuaScriptingContext::~LuaScriptingContext()`. -/
def destroy (E : EventTypeDecl) (ctx : LuaScriptingContext σ) : LuaScriptingContext σ :=
  if ctx.loaded then
    let references := collectEventReferences E ctx (collectMemoryReferences ctx [])
    let L := references.foldl luaL_unref ctx.lua
    { ctx with lua := lua_close L, loaded := false }
  else
    ctx

/-! ### Watchdog -/

/-- The hook `LuaScriptingContext::ExecutionCountHook`: `some msg` when `luaL_error` is raised with
message `msg`.  `elapsedMS` is the value of `_timer.GetElapsedMS()`; the product `timeout * 1000`
is computed in `uint32_t`. -/
def ExecutionCountHook (config : DebugConfig) (elapsedMS : ℚ) : Option String :=
  let timeout := config.ScriptTimeout % 4294967296
  if elapsedMS > (((timeout * 1000) % 4294967296 : Nat) : ℚ) then
    some ("Maximum execution time (" ++ toString timeout ++ " seconds) exceeded.")
  else
    none

/-! ### Sandbox set-up and script loading -/

def LUA_LOADLIBNAME : String := "package"

def LUA_COLIBNAME : String := "coroutine"

def LUA_TABLIBNAME : String := "table"

def LUA_IOLIBNAME : String := "io"

def LUA_OSLIBNAME : String := "os"

def LUA_STRLIBNAME : String := "string"

def LUA_MATHLIBNAME : String := "math"

def LUA_UTF8LIBNAME : String := "utf8"

def LUA_DBLIBNAME : String := "debug"

/-- The table `loadedlibs` of `LuaOpenLibs` (without its null terminator). -/
def loadedlibs : List (String × LibOpener) :=
  [("_G", LibOpener.luaopen_base),
   (LUA_LOADLIBNAME, LibOpener.luaopen_package),
   (LUA_COLIBNAME, LibOpener.luaopen_coroutine),
   (LUA_TABLIBNAME, LibOpener.luaopen_table),
   (LUA_IOLIBNAME, LibOpener.luaopen_io),
   (LUA_OSLIBNAME, LibOpener.luaopen_os),
   (LUA_STRLIBNAME, LibOpener.luaopen_string),
   (LUA_MATHLIBNAME, LibOpener.luaopen_math),
   (LUA_UTF8LIBNAME, LibOpener.luaopen_utf8),
   (LUA_DBLIBNAME, LibOpener.luaopen_debug)]

/-- The function `LuaScriptingContext::LuaOpenLibs(L, allowIoOsAccess)`. -/
def LuaOpenLibs (L : LuaState σ) (allowIoOsAccess : Bool) : LuaState σ :=
  loadedlibs.foldl
    (fun L lib =>
      if !allowIoOsAccess &&
          (lib.1 == LUA_IOLIBNAME || lib.1 == LUA_OSLIBNAME || lib.1 == LUA_LOADLIBNAME) then
        L
      else
        lua_pop (luaL_requiref L lib.1 lib.2) 1)
    L

/-- The function `LuaScriptingContext::LoadScript(scriptName, scriptContent, debugger)`;
`config` is the debug configuration reached through `debugger`, `s` the script-side state of a
fresh interpreter. -/
def LoadScript (I : Interp σ) (config : DebugConfig) (s : σ) (ctx : LuaScriptingContext σ)
    (scriptName scriptContent : String) : LuaScriptingContext σ × Bool :=
  let L0 : LuaState σ := luaL_newstate s
  let allowIoOsAccess := config.ScriptAllowIoOsAccess
  let L1 := LuaOpenLibs L0 allowIoOsAccess
  let sandbox := if allowIoOsAccess then 1 else 0
  let L2 :=
    if allowIoOsAccess && config.ScriptAllowNetworkAccess then
      let La := lua_getglobal L1 "package"
      let Lb := lua_getfield_top La "preload"
      let Lc := lua_pushcfunction Lb LibOpener.luaopen_socket_core
      let Ld := lua_setfield_below Lc "socket.core"
      let Le := lua_pushcfunction Ld LibOpener.luaopen_mime_core
      let Lf := lua_setfield_below Le "mime.core"
      lua_pop Lf 2
    else L1
  let L3 := luaL_requiref L2 "emu" LibOpener.LuaApi_GetLibrary
  let ctx1 := { ctx with scriptName := scriptName, loaded := true, contextIsThis := true,
                         apiContextIsThis := true, sandboxAllowLoadfile := sandbox,
                         log := ctx.log ++ [some "Loading script..."] }
  match I.compile scriptContent ("@" ++ scriptName) with
  | Except.ok chunk =>
    let L4 := lua_push L3 chunk
    let L5 := lua_sethook L4 1000
    let r := lua_pcall I L5 0 none
    if !r.2 then
      ({ ctx1 with lua := r.1, timerResets := ctx1.timerResets + 1,
                   log := ctx1.log ++ [some "Script loaded successfully."], initDone := true },
       true)
    else
      let ctx2 := { ctx1 with lua := r.1, timerResets := ctx1.timerResets + 1 }
      if lua_isstring (lua_top r.1) then
        ({ ctx2 with log := ctx2.log ++ [lua_tostring (lua_top r.1)] }, false)
      else
        (ctx2, false)
  | Except.error msg =>
    let L4 := lua_push L3 (LuaValue.str msg)
    let ctx2 := { ctx1 with lua := L4 }
    if lua_isstring (lua_top L4) then
      ({ ctx2 with log := ctx2.log ++ [lua_tostring (lua_top L4)] }, false)
    else
      (ctx2, false)

/-! ### Unregistering -/

/-- Modelled from the spec: `ScriptingContext::UnregisterMemoryCallback` of the base class is not
among the sources.  Section 4.3: the unregister operation locates "the specific entry (exact key
match)" for `(kind, start, end, domain, handle)` and removes it. -/
def ScriptingContext_UnregisterMemoryCallback (ctx : LuaScriptingContext σ) (type_ : CallbackType)
    (startAddr endAddr : Nat) (cpuType : Nat) (reference : Int) : LuaScriptingContext σ :=
  let entry : MemoryCallback :=
    { StartAddress := startAddr, EndAddress := endAddr, Type_ := cpuType, Reference := reference }
  { ctx with callbacks := Function.update ctx.callbacks type_ ((ctx.callbacks type_).erase entry) }

/-- Modelled from the spec: `ScriptingContext::UnregisterEventCallback` of the base class is not
among the sources.  Section 4.3: `unregisterEvent(eventType, handle)` locates the entry by exact
key match and removes it. -/
def ScriptingContext_UnregisterEventCallback (ctx : LuaScriptingContext σ) (type_ : Nat)
    (reference : Int) : LuaScriptingContext σ :=
  let slot := (ctx.eventCallbacks type_).erase reference
  { ctx with eventCallbacks := Function.update ctx.eventCallbacks type_ slot }

/-- The method `LuaScriptingContext::UnregisterMemoryCallback`. -/
def UnregisterMemoryCallback (ctx : LuaScriptingContext σ) (type_ : CallbackType)
    (startAddr endAddr : Nat) (cpuType : Nat) (reference : Int) : LuaScriptingContext σ :=
  let ctx1 := ScriptingContext_UnregisterMemoryCallback ctx type_ startAddr endAddr cpuType reference
  { ctx1 with lua := luaL_unref ctx1.lua reference }

/-- The method `LuaScriptingContext::UnregisterEventCallback`. -/
def UnregisterEventCallback (ctx : LuaScriptingContext σ) (type_ : Nat) (reference : Int) :
    LuaScriptingContext σ :=
  let ctx1 := ScriptingContext_UnregisterEventCallback ctx type_ reference
  { ctx1 with lua := luaL_unref ctx1.lua reference }

/-! ### Memory dispatch -/

/-- The conversion `(int)` applied to a `lua_Integer`. -/
def toInt32 (n : Int) : Int := (n + 2147483648) % 4294967296 - 2147483648

/-- The conversion `(uint8_t)` applied to an `int`. -/
def toUInt8 (n : Int) : Nat := (n % 256).toNat

/-- One iteration of the loop of `InternalCallMemoryCallback`, on the pair of the context and the
referenced `value`. -/
def memoryCallbackBody (I : Interp σ) (addr : Nat) (cpuType : Nat) (callback : MemoryCallback)
    (st : LuaScriptingContext σ × Nat) : LuaScriptingContext σ × Nat :=
  let ctx := st.1
  let value := st.2
  if callback.Type_ ≠ cpuType ∨ addr < callback.StartAddress ∨ addr > callback.EndAddress then
    st
  else
    let top := lua_gettop ctx.lua
    let L1 := lua_rawgeti_registry ctx.lua callback.Reference
    let L2 := lua_pushinteger L1 addr
    let L3 := lua_pushinteger L2 value
    let r := lua_pcall I L3 2 none
    if r.2 then
      ({ ctx with lua := r.1, log := ctx.log ++ [lua_tostring (lua_top r.1)] }, value)
    else
      let returnParamCount := lua_gettop r.1 - top
      let value1 :=
        if returnParamCount ≠ 0 ∧ lua_isinteger (lua_top r.1) then
          toUInt8 (toInt32 (lua_tointeger (lua_top r.1)))
        else value
      ({ ctx with lua := lua_settop r.1 top }, value1)

/-- The loop `for(MemoryCallback &callback : _callbacks[(int)type])`. -/
def memoryCallbackLoop (I : Interp σ) (addr : Nat) (cpuType : Nat) :
    List MemoryCallback → LuaScriptingContext σ × Nat → LuaScriptingContext σ × Nat
  | [], st => st
  | callback :: rest, st =>
    memoryCallbackLoop I addr cpuType rest (memoryCallbackBody I addr cpuType callback st)

/-- The method `LuaScriptingContext::InternalCallMemoryCallback(addr, value, type, cpuType)`;
returns the context and the content of `value` on return. -/
def InternalCallMemoryCallback (I : Interp σ) (ctx : LuaScriptingContext σ) (addr : Nat)
    (value : Nat) (type_ : CallbackType) (cpuType : Nat) : LuaScriptingContext σ × Nat :=
  if (ctx.callbacks type_).isEmpty then
    (ctx, value)
  else
    let ctx1 := { ctx with timerResets := ctx.timerResets + 1, contextIsThis := true,
                           lua := lua_sethook ctx.lua 1000, apiContextIsThis := true }
    memoryCallbackLoop I addr cpuType (ctx.callbacks type_) (ctx1, value)

/-! ### Event dispatch -/

/-- One iteration of the loop of `InternalCallEventCallback`. -/
def eventCallbackBody (I : Interp σ) (ref : Int) (ctx : LuaScriptingContext σ) :
    LuaScriptingContext σ :=
  let L1 := lua_rawgeti_registry ctx.lua ref
  let r := lua_pcall I L1 0 (some 0)
  if r.2 then
    { ctx with lua := r.1, log := ctx.log ++ [lua_tostring (lua_top r.1)] }
  else
    { ctx with lua := r.1 }

/-- The loop `for(int &ref : _eventCallbacks[(int)type])`. -/
def eventCallbackLoop (I : Interp σ) :
    List Int → LuaScriptingContext σ → LuaScriptingContext σ
  | [], ctx => ctx
  | ref :: rest, ctx => eventCallbackLoop I rest (eventCallbackBody I ref ctx)

/-- The method `LuaScriptingContext::InternalCallEventCallback(type)`.  The class `LuaCallHelper`
is not among the sources: `returnCount` stands for `l.ReturnCount()`, as a function of the
interpreter state in which the helper `l` was constructed and the state at the return. -/
def InternalCallEventCallback (I : Interp σ) (returnCount : LuaState σ → LuaState σ → Int)
    (ctx : LuaScriptingContext σ) (type_ : Nat) : LuaScriptingContext σ × Int :=
  if (ctx.eventCallbacks type_).isEmpty then
    (ctx, 0)
  else
    let ctx1 := { ctx with timerResets := ctx.timerResets + 1, contextIsThis := true,
                           lua := lua_sethook ctx.lua 1000, apiContextIsThis := true }
    let ctx2 := eventCallbackLoop I (ctx.eventCallbacks type_) ctx1
    (ctx2, returnCount ctx1.lua ctx2.lua)

/-! ## Notions used in the statements -/

/-- The match condition in the words of the specification: equal domain, and the address inside
the inclusive range. -/
def matchesAccess (addr cpuType : Nat) (callback : MemoryCallback) : Bool :=
  decide (callback.Type_ = cpuType ∧ callback.StartAddress ≤ addr ∧ addr ≤ callback.EndAddress)

/-- The value a call outcome overwrites `value` with, if it does: the last result, when it is an
integer, converted to `int` and then to `uint8_t`. -/
def overwriteOf : CallOutcome → Option Nat
  | CallOutcome.ok rs =>
    match rs.getLast? with
    | some (LuaValue.integer n) => some (toUInt8 (toInt32 n))
    | _ => none
  | CallOutcome.error _ => none

/-- The error message of a failed call. -/
def errorOf : CallOutcome → Option String
  | CallOutcome.ok _ => none
  | CallOutcome.error msg => some msg

/-- A protected call recorded in the interpreter. -/
structure ProtectedCall where
  callee : LuaValue
  args : List LuaValue
  outcome : CallOutcome
  deriving DecidableEq, Repr

def ProtectedCall.toEvent (c : ProtectedCall) : LuaEvent :=
  LuaEvent.pcall c.callee c.args c.outcome

/-- The protected calls among a list of recorded events. -/
def pcallsOf (events : List LuaEvent) : List ProtectedCall :=
  events.filterMap fun e =>
    match e with
    | LuaEvent.pcall f args o => some { callee := f, args := args, outcome := o }
    | _ => none

/-- The references released among a list of recorded events. -/
def unrefsOf (events : List LuaEvent) : List Int :=
  events.filterMap fun e =>
    match e with
    | LuaEvent.unref ref => some ref
    | _ => none

/-- The libraries loaded with `luaL_requiref` among a list of recorded events. -/
def requirefsOf (events : List LuaEvent) : List (String × LibOpener) :=
  events.filterMap fun e =>
    match e with
    | LuaEvent.requiref name opener => some (name, opener)
    | _ => none

def isSetfield : LuaEvent → Bool
  | LuaEvent.setfield _ _ _ => true
  | _ => false

/-- The `lua_setfield` calls among a list of recorded events. -/
def setfieldsOf (events : List LuaEvent) : List LuaEvent :=
  events.filter isSetfield

/-- The value left by the last overwrite among the outcomes `os`, or `v` if there was none. -/
def lastOverwrite (v : Nat) (os : List CallOutcome) : Nat :=
  ((os.filterMap overwriteOf).getLast?).getD v

/-- State of the context after the protected call of a memory callback that recorded `ev`, left
the script state `s` and had outcome `o`. -/
def afterCall (ctx : LuaScriptingContext σ) (s : σ) (ev : LuaEvent) (o : CallOutcome) :
    LuaScriptingContext σ :=
  match o with
  | CallOutcome.ok _ =>
    { ctx with lua := { ctx.lua with script := s, events := ctx.lua.events ++ [ev] } }
  | CallOutcome.error msg =>
    { ctx with lua := { ctx.lua with stack := ctx.lua.stack ++ [LuaValue.str msg], script := s,
                                     events := ctx.lua.events ++ [ev] },
               log := ctx.log ++ [some msg] }

/-- The calls made when every entry of the list is invoked in turn, from script state `s` and
value `v`, each one seeing the value left by its predecessors. -/
def chainCalls (I : Interp σ) (addr : Nat) : List MemoryCallback → σ → Nat → List ProtectedCall
  | [], _, _ => []
  | callback :: rest, s, v =>
    let args := [LuaValue.integer addr, LuaValue.integer v]
    let r := I.call s (LuaValue.registryObject callback.Reference) args
    { callee := LuaValue.registryObject callback.Reference, args := args, outcome := r.2 } ::
      chainCalls I addr rest r.1 ((overwriteOf r.2).getD v)

/-- The value left after the calls of `chainCalls`. -/
def chainValue (I : Interp σ) (addr : Nat) : List MemoryCallback → σ → Nat → Nat
  | [], _, v => v
  | callback :: rest, s, v =>
    let r := I.call s (LuaValue.registryObject callback.Reference)
      [LuaValue.integer addr, LuaValue.integer v]
    chainValue I addr rest r.1 ((overwriteOf r.2).getD v)

/-! ## A concrete script, used to instantiate the statements -/

/-- A script whose registered functions are: 1 returns `5`; 2 returns nothing; 3 raises
`"boom"`; 4 returns `5, "x"`; 5 returns `-1`; 6 returns `300`; any other returns its
arguments.  The script state counts the calls. -/
def demoInterp : Interp Nat where
  call := fun s f args =>
    match f with
    | LuaValue.registryObject 1 => (s + 1, CallOutcome.ok [LuaValue.integer 5])
    | LuaValue.registryObject 2 => (s + 1, CallOutcome.ok [])
    | LuaValue.registryObject 3 => (s + 1, CallOutcome.error "boom")
    | LuaValue.registryObject 4 => (s + 1, CallOutcome.ok [LuaValue.integer 5, LuaValue.str "x"])
    | LuaValue.registryObject 5 => (s + 1, CallOutcome.ok [LuaValue.integer (-1)])
    | LuaValue.registryObject 6 => (s + 1, CallOutcome.ok [LuaValue.integer 300])
    | _ => (s + 1, CallOutcome.ok args)
  compile := fun _ _ => Except.ok (LuaValue.registryObject 0)

/-- A loaded context whose `CpuWrite` slot holds `cbs` and whose event slot `i` holds
`events i`. -/
def demoContext (cbs : List MemoryCallback) (events : Nat → List Int) : LuaScriptingContext Nat :=
  { lua := luaL_newstate 0, loaded := true,
    callbacks := fun t => if t = CallbackType.CpuWrite then cbs else [],
    eventCallbacks := events, timerResets := 0, contextIsThis := false,
    apiContextIsThis := false, log := [], sandboxAllowLoadfile := 0, scriptName := "demo",
    initDone := true }

/-- Two matching `CpuWrite` entries at address `0x10`: the first returns `5`, the second
nothing. -/
def demoChain : LuaScriptingContext Nat :=
  demoContext [⟨16, 16, 0, 1⟩, ⟨0, 32, 0, 2⟩] (fun _ => [])

/-- One matching `CpuWrite` entry at address `0x10`, whose function returns `5, "x"`. -/
def demoTwoResults : LuaScriptingContext Nat :=
  demoContext [⟨16, 16, 0, 4⟩] (fun _ => [])

/-- One matching `CpuWrite` entry at address `0x10`, whose function returns `300`. -/
def demoSingle : LuaScriptingContext Nat :=
  demoContext [⟨0, 32, 0, 6⟩] (fun _ => [])

/-- Three matching `CpuWrite` entries at address `0x10`: the first raises `"boom"`, the second
returns `300`, the third returns `5`. -/
def demoFaulty : LuaScriptingContext Nat :=
  demoContext [⟨16, 16, 0, 3⟩, ⟨0, 32, 0, 6⟩, ⟨16, 20, 0, 1⟩] (fun _ => [])

/-- Two `CpuWrite` entries, on different ranges, carry the same reference `7`, which is also
registered for the event of slot `0` together with reference `9`. -/
def demoAliased : LuaScriptingContext Nat :=
  demoContext [⟨16, 16, 0, 7⟩, ⟨32, 32, 0, 7⟩] (fun i => if i = 0 then [7, 9] else [])

theorem pcall_pushed (I : Interp σ) (L : LuaState σ) (f a b : LuaValue) (n : Option Nat) :
    lua_pcall I (lua_push (lua_push (lua_push L f) a) b) 2 n =
      match I.call L.script f [a, b] with
      | (s, CallOutcome.ok rs) =>
        ({ L with stack := L.stack ++ adjustResults rs n, script := s,
                  events := L.events ++ [LuaEvent.pcall f [a, b] (CallOutcome.ok rs)] }, false)
      | (s, CallOutcome.error msg) =>
        ({ L with stack := L.stack ++ [LuaValue.str msg], script := s,
                  events := L.events ++ [LuaEvent.pcall f [a, b] (CallOutcome.error msg)] }, true) := by
  have h1 : (L.stack ++ [f] ++ [a] ++ [b]).length - (2 + 1) = L.stack.length := by
    simp
  have h2 : (L.stack ++ [f] ++ [a] ++ [b]).getD L.stack.length LuaValue.nil = f := by
    simp [List.getD_eq_getElem?_getD, List.append_assoc, List.getElem_append_right]
  have h3 : (L.stack ++ [f] ++ [a] ++ [b]).drop (L.stack.length + 1) = [a, b] := by
    simp [List.append_assoc, List.drop_append_eq_append_drop]
  have h4 : (L.stack ++ [f] ++ [a] ++ [b]).take L.stack.length = L.stack := by
    simp [List.append_assoc, List.take_append_eq_append_take]
  simp only [lua_pcall, lua_push, h1, h2, h3, h4]

theorem body_skip (I : Interp σ) (addr cpuType : Nat) (callback : MemoryCallback)
    (st : LuaScriptingContext σ × Nat) (h : matchesAccess addr cpuType callback = false) :
    memoryCallbackBody I addr cpuType callback st = st := by
  have h1 : callback.Type_ ≠ cpuType ∨ addr < callback.StartAddress ∨ addr > callback.EndAddress := by
    simp only [matchesAccess, decide_eq_false_iff_not] at h
    by_contra hc
    push_neg at hc
    exact h ⟨hc.1, hc.2.1, hc.2.2⟩
  simp only [memoryCallbackBody, if_pos h1]

theorem body_call (I : Interp σ) (addr cpuType : Nat) (callback : MemoryCallback)
    (st : LuaScriptingContext σ × Nat) (h : matchesAccess addr cpuType callback = true) :
    memoryCallbackBody I addr cpuType callback st =
      let args := [LuaValue.integer addr, LuaValue.integer st.2]
      let r := I.call st.1.lua.script (LuaValue.registryObject callback.Reference) args
      (afterCall st.1 r.1 (LuaEvent.pcall (LuaValue.registryObject callback.Reference) args r.2) r.2,
        (overwriteOf r.2).getD st.2) := by
  have h1 : ¬ (callback.Type_ ≠ cpuType ∨ addr < callback.StartAddress ∨
      addr > callback.EndAddress) := by
    simp only [matchesAccess, decide_eq_true_eq] at h
    omega
  obtain ⟨ctx, value⟩ := st
  simp only [memoryCallbackBody, if_neg h1, lua_rawgeti_registry, lua_pushinteger, pcall_pushed]
  rcases hc : I.call ctx.lua.script (LuaValue.registryObject callback.Reference)
    [LuaValue.integer addr, LuaValue.integer value] with ⟨s, o⟩
  cases o with
  | error msg =>
    simp [afterCall, overwriteOf, lua_top, lua_tostring]
  | ok rs =>
    simp [afterCall, overwriteOf, lua_top, lua_gettop, lua_settop, adjustResults]
    rcases hl : rs.getLast? with _ | v
    · have hnil : rs = [] := List.getLast?_eq_none_iff.mp hl
      simp [hnil]
    · have hne : rs ≠ [] := by
        intro hnil
        simp [hnil] at hl
      cases v <;> simp [hne, lua_isinteger, lua_tointeger]

theorem pcallsOf_append (xs ys : List LuaEvent) :
    pcallsOf (xs ++ ys) = pcallsOf xs ++ pcallsOf ys := by
  simp [pcallsOf, List.filterMap_append]

theorem pcallsOf_map_toEvent (cs : List ProtectedCall) :
    pcallsOf (cs.map ProtectedCall.toEvent) = cs := by
  induction cs with
  | nil => rfl
  | cons c cs ih =>
    simp only [pcallsOf] at ih
    simp [pcallsOf, ProtectedCall.toEvent, List.filterMap_cons, ih]

theorem lastOverwrite_cons (v : Nat) (o : CallOutcome) (os : List CallOutcome) :
    lastOverwrite v (o :: os) = lastOverwrite ((overwriteOf o).getD v) os := by
  unfold lastOverwrite
  rcases h : overwriteOf o with _ | w
  · simp [List.filterMap_cons, h]
  · simp only [List.filterMap_cons, h, Option.getD_some]
    rcases h2 : (List.filterMap overwriteOf os).getLast? with _ | z
    · have : List.filterMap overwriteOf os = [] := List.getLast?_eq_none_iff.mp h2
      simp [this]
    · simp [List.getLast?_cons, h2]

theorem loop_spec (I : Interp σ) (addr cpuType : Nat) (cbs : List MemoryCallback) :
    ∀ st : LuaScriptingContext σ × Nat,
      let r := memoryCallbackLoop I addr cpuType cbs st
      let calls := chainCalls I addr (cbs.filter (matchesAccess addr cpuType)) st.1.lua.script st.2
      let errors := calls.filterMap fun c => errorOf c.outcome
      r.1.lua.events = st.1.lua.events ++ calls.map ProtectedCall.toEvent ∧
      r.1.lua.stack = st.1.lua.stack ++ errors.map LuaValue.str ∧
      r.1.log = st.1.log ++ errors.map some ∧
      r.2 = chainValue I addr (cbs.filter (matchesAccess addr cpuType)) st.1.lua.script st.2 ∧
      r.1.lua.hookCount = st.1.lua.hookCount ∧
      r.1.callbacks = st.1.callbacks ∧
      r.1.eventCallbacks = st.1.eventCallbacks ∧
      r.1.timerResets = st.1.timerResets := by
  induction cbs with
  | nil => intro st; simp [memoryCallbackLoop, chainCalls, chainValue]
  | cons cb rest ih =>
    intro st
    by_cases hm : matchesAccess addr cpuType cb = true
    · have hb := body_call I addr cpuType cb st hm
      have := ih (memoryCallbackBody I addr cpuType cb st)
      simp only [memoryCallbackLoop, List.filter_cons, hm, if_true, chainCalls, chainValue]
      rw [hb] at this ⊢
      rcases hc : I.call st.1.lua.script (LuaValue.registryObject cb.Reference)
        [LuaValue.integer addr, LuaValue.integer st.2] with ⟨s, o⟩
      simp only [hc] at this ⊢
      cases o with
      | ok rs =>
        simp only [afterCall] at this ⊢
        obtain ⟨h1, h2, h3, h4, h5, h6, h7, h8⟩ := this
        refine ⟨?_, ?_, ?_, h4, h5, h6, h7, h8⟩
        · rw [h1]; simp [ProtectedCall.toEvent]
        · rw [h2]; simp [errorOf]
        · rw [h3]; simp [errorOf]
      | error msg =>
        simp only [afterCall] at this ⊢
        obtain ⟨h1, h2, h3, h4, h5, h6, h7, h8⟩ := this
        refine ⟨?_, ?_, ?_, h4, h5, h6, h7, h8⟩
        · rw [h1]; simp [ProtectedCall.toEvent]
        · rw [h2]; simp [errorOf]
        · rw [h3]; simp [errorOf]
    · have hm2 : matchesAccess addr cpuType cb = false := by simpa using hm
      have hb := body_skip I addr cpuType cb st hm2
      have := ih st
      simp only [memoryCallbackLoop, List.filter_cons, hm2, hb]
      simpa using this

theorem chainCalls_callee (I : Interp σ) (addr : Nat) (cbs : List MemoryCallback) :
    ∀ (s : σ) (v : Nat), (chainCalls I addr cbs s v).map ProtectedCall.callee =
      cbs.map fun cb => LuaValue.registryObject cb.Reference := by
  induction cbs with
  | nil => intro s v; rfl
  | cons cb rest ih => intro s v; simp [chainCalls, ih]

theorem chainCalls_length (I : Interp σ) (addr : Nat) (cbs : List MemoryCallback) :
    ∀ (s : σ) (v : Nat), (chainCalls I addr cbs s v).length = cbs.length := by
  induction cbs with
  | nil => intro s v; rfl
  | cons cb rest ih => intro s v; simp [chainCalls, ih]

theorem chainValue_eq (I : Interp σ) (addr : Nat) (cbs : List MemoryCallback) :
    ∀ (s : σ) (v : Nat), chainValue I addr cbs s v =
      lastOverwrite v ((chainCalls I addr cbs s v).map ProtectedCall.outcome) := by
  induction cbs with
  | nil => intro s v; simp [chainValue, chainCalls, lastOverwrite]
  | cons cb rest ih =>
    intro s v
    simp only [chainValue, chainCalls, List.map_cons, lastOverwrite_cons]
    exact ih _ _

theorem chainCalls_args (I : Interp σ) (addr : Nat) (cbs : List MemoryCallback) :
    ∀ (s : σ) (v : Nat) (k : Nat) (hk : k < (chainCalls I addr cbs s v).length),
      ((chainCalls I addr cbs s v).get ⟨k, hk⟩).args =
        [LuaValue.integer addr, LuaValue.integer
          (lastOverwrite v (((chainCalls I addr cbs s v).take k).map ProtectedCall.outcome))] := by
  induction cbs with
  | nil => intro s v k hk; simp [chainCalls] at hk
  | cons cb rest ih =>
    intro s v k hk
    cases k with
    | zero => simp [chainCalls, lastOverwrite]
    | succ k =>
      simp only [chainCalls, List.get_eq_getElem, List.getElem_cons_succ, List.take_succ_cons,
        List.map_cons, lastOverwrite_cons]
      have hk2 : k < (chainCalls I addr rest
          (I.call s (LuaValue.registryObject cb.Reference)
            [LuaValue.integer addr, LuaValue.integer v]).1
          ((overwriteOf (I.call s (LuaValue.registryObject cb.Reference)
            [LuaValue.integer addr, LuaValue.integer v]).2).getD v)).length := by
        simpa [chainCalls] using hk
      have := ih _ _ k hk2
      simpa using this

/-! ## Memory dispatch: which entries are invoked, and in which order -/

theorem afterCall_events (ctx : LuaScriptingContext σ) (s : σ) (ev : LuaEvent)
    (o : CallOutcome) : (afterCall ctx s ev o).lua.events = ctx.lua.events ++ [ev] := by
  cases o <;> rfl

theorem dispatch_spec (I : Interp σ) (ctx : LuaScriptingContext σ) (addr value : Nat)
    (type_ : CallbackType) (cpuType : Nat) :
    let r := InternalCallMemoryCallback I ctx addr value type_ cpuType
    let matching := (ctx.callbacks type_).filter (matchesAccess addr cpuType)
    let calls := chainCalls I addr matching ctx.lua.script value
    let errors := calls.filterMap fun c => errorOf c.outcome
    (∃ pre, r.1.lua.events = ctx.lua.events ++ pre ++ calls.map ProtectedCall.toEvent ∧
      pcallsOf pre = []) ∧
    r.1.lua.stack = ctx.lua.stack ++ errors.map LuaValue.str ∧
    r.1.log = ctx.log ++ errors.map some ∧
    r.2 = chainValue I addr matching ctx.lua.script value := by
  intro r matching calls errors
  by_cases he : (ctx.callbacks type_).isEmpty = true
  · have hnil : ctx.callbacks type_ = [] := List.isEmpty_iff.mp he
    have hr : r = (ctx, value) := by
      simp only [r, InternalCallMemoryCallback, he, if_true]
    have hc : calls = [] := by simp [calls, matching, hnil, chainCalls]
    have hv : chainValue I addr matching ctx.lua.script value = value := by
      simp [matching, hnil, chainValue]
    refine ⟨⟨[], ?_, rfl⟩, ?_, ?_, ?_⟩
    · simp [hr, hc]
    · simp [hr, errors, hc]
    · simp [hr, errors, hc]
    · simp [hr, hv]
  · have hr : r = memoryCallbackLoop I addr cpuType (ctx.callbacks type_)
        ({ ctx with timerResets := ctx.timerResets + 1, contextIsThis := true,
                    lua := lua_sethook ctx.lua 1000, apiContextIsThis := true }, value) := by
      simp only [r, InternalCallMemoryCallback, he]
      rfl
    have h := loop_spec I addr cpuType (ctx.callbacks type_)
        ({ ctx with timerResets := ctx.timerResets + 1, contextIsThis := true,
                    lua := lua_sethook ctx.lua 1000, apiContextIsThis := true }, value)
    simp only [← hr] at h
    obtain ⟨h1, h2, h3, h4, -⟩ := h
    refine ⟨⟨[LuaEvent.sethook 1000], ?_, rfl⟩, ?_, ?_, ?_⟩
    · rw [h1]; simp [lua_sethook, calls, matching]
    · rw [h2]; simp [lua_sethook, errors, calls, matching]
    · rw [h3]; simp [lua_sethook, errors, calls, matching]
    · rw [h4]; simp [lua_sethook, matching]

theorem dispatch_calls (I : Interp σ) (ctx : LuaScriptingContext σ) (addr value : Nat)
    (type_ : CallbackType) (cpuType : Nat) :
    pcallsOf ((InternalCallMemoryCallback I ctx addr value type_ cpuType).1.lua.events.drop
        ctx.lua.events.length) =
      chainCalls I addr ((ctx.callbacks type_).filter (matchesAccess addr cpuType))
        ctx.lua.script value := by
  obtain ⟨⟨pre, h1, h2⟩, -⟩ := dispatch_spec I ctx addr value type_ cpuType
  rw [h1, List.append_assoc, List.drop_left, pcallsOf_append, h2, pcallsOf_map_toEvent]
  rfl

/-- C1: `InternalCallMemoryCallback` invokes exactly the entries of the slot of the access kind
whose domain equals the access domain and whose inclusive range `[StartAddress, EndAddress]`
contains the address, in registration order: the callees of the protected calls it makes are the
registry objects of the matching entries, in the order of the slot.  For one entry: the loop
body makes one call, of that entry, when it matches, and none otherwise. -/
theorem C1_invokes_exactly_matching_in_order (I : Interp σ) (ctx : LuaScriptingContext σ)
    (addr value : Nat) (type_ : CallbackType) (cpuType : Nat) :
    (pcallsOf ((InternalCallMemoryCallback I ctx addr value type_ cpuType).1.lua.events.drop
        ctx.lua.events.length)).map ProtectedCall.callee =
      ((ctx.callbacks type_).filter fun callback =>
          decide (callback.Type_ = cpuType ∧ callback.StartAddress ≤ addr ∧
            addr ≤ callback.EndAddress)).map
        (fun callback => LuaValue.registryObject callback.Reference) ∧
    ∀ (callback : MemoryCallback) (st : LuaScriptingContext σ × Nat),
      (pcallsOf ((memoryCallbackBody I addr cpuType callback st).1.lua.events.drop
          st.1.lua.events.length)).map ProtectedCall.callee =
        if callback.Type_ = cpuType ∧ callback.StartAddress ≤ addr ∧ addr ≤ callback.EndAddress
        then [LuaValue.registryObject callback.Reference] else [] := by
  constructor
  · rw [dispatch_calls, chainCalls_callee]
    rfl
  · intro callback st
    by_cases hm : matchesAccess addr cpuType callback = true
    · have hc : callback.Type_ = cpuType ∧ callback.StartAddress ≤ addr ∧
          addr ≤ callback.EndAddress := by simpa [matchesAccess] using hm
      rw [body_call I addr cpuType callback st hm, if_pos hc]
      simp [afterCall_events, pcallsOf]
    · have hm2 : matchesAccess addr cpuType callback = false := by simpa using hm
      have hc : ¬ (callback.Type_ = cpuType ∧ callback.StartAddress ≤ addr ∧
          addr ≤ callback.EndAddress) := by simpa [matchesAccess] using hm2
      rw [body_skip I addr cpuType callback st hm2, if_neg hc]
      simp [pcallsOf]

/-! ## Memory dispatch: chained interception -/

/-- C2: chained interception composes left to right.  In a call of
`InternalCallMemoryCallback`, the `k`-th protected call receives `(address, v)` where `v` is the
value left by the last overwrite among the calls before it (the incoming value when none
overwrote), and the value left in `value` is the one left by the last overwrite among all the
calls.  In particular, with two matching `CpuWrite` entries at address `0x10` and incoming value
`7`, when the first returns the integer `5` and the second returns nothing, the second is called
with `(0x10, 5)` and the final value is `5`. -/
theorem C2_chained_interception :
    (∀ (σ : Type) (I : Interp σ) (ctx : LuaScriptingContext σ) (addr value : Nat)
        (type_ : CallbackType) (cpuType : Nat),
      let r := InternalCallMemoryCallback I ctx addr value type_ cpuType
      let calls := pcallsOf (r.1.lua.events.drop ctx.lua.events.length)
      (∀ (k : Nat) (hk : k < calls.length),
        (calls.get ⟨k, hk⟩).args =
          [LuaValue.integer addr,
           LuaValue.integer (lastOverwrite value ((calls.take k).map ProtectedCall.outcome))]) ∧
      r.2 = lastOverwrite value (calls.map ProtectedCall.outcome)) ∧
    (∀ (σ : Type) (I : Interp σ) (ctx : LuaScriptingContext σ) (cpuType : Nat)
        (first second : MemoryCallback) (s1 s2 : σ),
      ctx.callbacks CallbackType.CpuWrite = [first, second] →
      matchesAccess 16 cpuType first = true →
      matchesAccess 16 cpuType second = true →
      I.call ctx.lua.script (LuaValue.registryObject first.Reference)
        [LuaValue.integer 16, LuaValue.integer 7] = (s1, CallOutcome.ok [LuaValue.integer 5]) →
      I.call s1 (LuaValue.registryObject second.Reference)
        [LuaValue.integer 16, LuaValue.integer 5] = (s2, CallOutcome.ok []) →
      let r := InternalCallMemoryCallback I ctx 16 7 CallbackType.CpuWrite cpuType
      pcallsOf (r.1.lua.events.drop ctx.lua.events.length) =
        [{ callee := LuaValue.registryObject first.Reference,
           args := [LuaValue.integer 16, LuaValue.integer 7],
           outcome := CallOutcome.ok [LuaValue.integer 5] },
         { callee := LuaValue.registryObject second.Reference,
           args := [LuaValue.integer 16, LuaValue.integer 5],
           outcome := CallOutcome.ok [] }] ∧
      r.2 = 5) := by
  constructor
  · intro σ I ctx addr value type_ cpuType r calls
    have hcalls : calls = chainCalls I addr
        ((ctx.callbacks type_).filter (matchesAccess addr cpuType)) ctx.lua.script value :=
      dispatch_calls I ctx addr value type_ cpuType
    have h4 := (dispatch_spec I ctx addr value type_ cpuType).2.2.2
    clear_value calls
    subst hcalls
    constructor
    · intro k hk
      exact chainCalls_args I addr _ ctx.lua.script value k hk
    · rw [← chainValue_eq]
      exact h4
  · intro σ I ctx cpuType first second s1 s2 hslot hm1 hm2 hc1 hc2 r
    have hcalls := dispatch_calls I ctx 16 7 CallbackType.CpuWrite cpuType
    have h4 := (dispatch_spec I ctx 16 7 CallbackType.CpuWrite cpuType).2.2.2
    have hov : overwriteOf (CallOutcome.ok [LuaValue.integer 5]) = some 5 := by
      simp [overwriteOf, toUInt8, toInt32]
    have hov2 : overwriteOf (CallOutcome.ok []) = none := by
      simp [overwriteOf]
    constructor
    · rw [hcalls, hslot]
      simp only [List.filter_cons, hm1, hm2, if_true, List.filter_nil, chainCalls]
      simp [hc1, hc2, hov]
    · show (InternalCallMemoryCallback I ctx 16 7 CallbackType.CpuWrite cpuType).2 = 5
      rw [h4, hslot]
      simp only [List.filter_cons, hm1, hm2, if_true, List.filter_nil, chainValue]
      simp [hc1, hc2, hov, hov2]

/-- C2 at a concrete input: the two-entry example of the claim, run on `demoChain`. -/
theorem C2_chained_interception_witness :
    pcallsOf ((InternalCallMemoryCallback demoInterp demoChain 16 7 CallbackType.CpuWrite
        0).1.lua.events.drop demoChain.lua.events.length) =
      [{ callee := LuaValue.registryObject 1,
         args := [LuaValue.integer 16, LuaValue.integer 7],
         outcome := CallOutcome.ok [LuaValue.integer 5] },
       { callee := LuaValue.registryObject 2,
         args := [LuaValue.integer 16, LuaValue.integer 5],
         outcome := CallOutcome.ok [] }] ∧
    (InternalCallMemoryCallback demoInterp demoChain 16 7 CallbackType.CpuWrite 0).2 = 5 :=
  C2_chained_interception.2 Nat demoInterp demoChain 0 ⟨16, 16, 0, 1⟩ ⟨0, 32, 0, 2⟩ 1 2
    rfl (by decide) (by decide) rfl rfl

/-! ## Memory dispatch: which result overwrites the value -/

theorem toUInt8_toInt32 (n : Int) : toUInt8 (toInt32 n) = (n % 256).toNat := by
  unfold toUInt8 toInt32
  congr 1
  omega

theorem body_value_ok (I : Interp σ) (addr cpuType : Nat) (callback : MemoryCallback)
    (st : LuaScriptingContext σ × Nat) (s : σ) (rs : List LuaValue)
    (hm : matchesAccess addr cpuType callback = true)
    (hc : I.call st.1.lua.script (LuaValue.registryObject callback.Reference)
      [LuaValue.integer addr, LuaValue.integer st.2] = (s, CallOutcome.ok rs)) :
    (memoryCallbackBody I addr cpuType callback st).2 =
      (overwriteOf (CallOutcome.ok rs)).getD st.2 := by
  rw [body_call I addr cpuType callback st hm]
  simp only [hc]

/-- C3, as stated, fails: a matching callback whose invocation succeeds with the two results
`5, "x"` has returned an integer result, yet the value `7` is not overwritten with `5`: the code
looks at the last result only. -/
theorem C3_counterexample :
    demoInterp.call demoTwoResults.lua.script (LuaValue.registryObject 4)
        [LuaValue.integer 16, LuaValue.integer 7] =
      (1, CallOutcome.ok [LuaValue.integer 5, LuaValue.str "x"]) ∧
    (InternalCallMemoryCallback demoInterp demoTwoResults 16 7 CallbackType.CpuWrite 0).2 = 7 ∧
    ¬ (∀ (I : Interp Nat) (ctx : LuaScriptingContext Nat) (addr value : Nat)
        (type_ : CallbackType) (cpuType : Nat) (callback : MemoryCallback) (s : Nat)
        (rs : List LuaValue) (n : Int),
      ctx.callbacks type_ = [callback] →
      matchesAccess addr cpuType callback = true →
      I.call ctx.lua.script (LuaValue.registryObject callback.Reference)
        [LuaValue.integer addr, LuaValue.integer value] = (s, CallOutcome.ok rs) →
      LuaValue.integer n ∈ rs →
      (InternalCallMemoryCallback I ctx addr value type_ cpuType).2 = (n % 256).toNat) := by
  refine ⟨rfl, by decide, ?_⟩
  intro h
  have h1 := h demoInterp demoTwoResults 16 7 CallbackType.CpuWrite 0 ⟨16, 16, 0, 4⟩ 1
    [LuaValue.integer 5, LuaValue.str "x"] 5 rfl (by decide) rfl (by simp)
  have h2 : (InternalCallMemoryCallback demoInterp demoTwoResults 16 7 CallbackType.CpuWrite
      0).2 = 7 := by decide
  rw [h2] at h1
  exact absurd h1 (by decide)

/-- C3, amended: for every matching callback whose invocation succeeds, when the last result is
an integer `n` the loop body overwrites `value` with `n mod 256`; when there is no result or the
last result is not an integer (in particular when no result is an integer) `value` is left as it
was.  The same holds for the value returned by `InternalCallMemoryCallback` on a slot holding
that single entry. -/
theorem C3_last_integer_result_overwrites (I : Interp σ) (addr cpuType : Nat)
    (callback : MemoryCallback) (st : LuaScriptingContext σ × Nat) (s : σ) (rs : List LuaValue)
    (hm : matchesAccess addr cpuType callback = true)
    (hc : I.call st.1.lua.script (LuaValue.registryObject callback.Reference)
      [LuaValue.integer addr, LuaValue.integer st.2] = (s, CallOutcome.ok rs)) :
    (∀ n : Int, rs.getLast? = some (LuaValue.integer n) →
      (memoryCallbackBody I addr cpuType callback st).2 = (n % 256).toNat) ∧
    ((∀ n : Int, rs.getLast? ≠ some (LuaValue.integer n)) →
      (memoryCallbackBody I addr cpuType callback st).2 = st.2) ∧
    ((∀ n : Int, LuaValue.integer n ∉ rs) →
      (memoryCallbackBody I addr cpuType callback st).2 = st.2) ∧
    (∀ type_ : CallbackType, st.1.callbacks type_ = [callback] →
      (∀ n : Int, rs.getLast? = some (LuaValue.integer n) →
        (InternalCallMemoryCallback I st.1 addr st.2 type_ cpuType).2 = (n % 256).toNat) ∧
      ((∀ n : Int, rs.getLast? ≠ some (LuaValue.integer n)) →
        (InternalCallMemoryCallback I st.1 addr st.2 type_ cpuType).2 = st.2)) := by
  have hb := body_value_ok I addr cpuType callback st s rs hm hc
  have hlast : ∀ n : Int, rs.getLast? = some (LuaValue.integer n) →
      (overwriteOf (CallOutcome.ok rs)).getD st.2 = (n % 256).toNat := by
    intro n hn
    simp [overwriteOf, hn, toUInt8_toInt32]
  have hnot : (∀ n : Int, rs.getLast? ≠ some (LuaValue.integer n)) →
      (overwriteOf (CallOutcome.ok rs)).getD st.2 = st.2 := by
    intro hn
    rcases hl : rs.getLast? with _ | v
    · simp [overwriteOf, hl]
    · cases v with
      | integer n => exact absurd hl (hn n)
      | _ => simp [overwriteOf, hl]
  have hwhole : ∀ type_ : CallbackType, st.1.callbacks type_ = [callback] →
      (InternalCallMemoryCallback I st.1 addr st.2 type_ cpuType).2 =
        (overwriteOf (CallOutcome.ok rs)).getD st.2 := by
    intro type_ hslot
    rw [(dispatch_spec I st.1 addr st.2 type_ cpuType).2.2.2, hslot]
    simp only [List.filter_cons, hm, if_true, List.filter_nil, chainValue, hc]
  refine ⟨?_, ?_, ?_, ?_⟩
  · intro n hn; rw [hb]; exact hlast n hn
  · intro hn; rw [hb]; exact hnot hn
  · intro hn; rw [hb]
    apply hnot
    intro n hl
    exact hn n (List.mem_of_getLast?_eq_some hl)
  · intro type_ hslot
    refine ⟨?_, ?_⟩
    · intro n hn; rw [hwhole type_ hslot]; exact hlast n hn
    · intro hn; rw [hwhole type_ hslot]; exact hnot hn

/-- C3 (amended) at a concrete input: a callback returning `300` on incoming value `7` leaves
`300 mod 256 = 44`. -/
theorem C3_last_integer_result_overwrites_witness :
    (memoryCallbackBody demoInterp 16 0 ⟨0, 32, 0, 6⟩ (demoSingle, 7)).2 = 44 ∧
    (InternalCallMemoryCallback demoInterp demoSingle 16 7 CallbackType.CpuWrite 0).2 = 44 :=
  ⟨(C3_last_integer_result_overwrites demoInterp 16 0 ⟨0, 32, 0, 6⟩ (demoSingle, 7) 1
      [LuaValue.integer 300] (by decide) rfl).1 300 rfl,
   ((C3_last_integer_result_overwrites demoInterp 16 0 ⟨0, 32, 0, 6⟩ (demoSingle, 7) 1
      [LuaValue.integer 300] (by decide) rfl).2.2.2 CallbackType.CpuWrite rfl).1 300 rfl⟩

/-! ## Memory dispatch: a failing callback does not stop the dispatch -/

theorem filterMap_overwriteOf_succeeded (os : List CallOutcome) :
    (os.filter fun o => (errorOf o).isNone).filterMap overwriteOf = os.filterMap overwriteOf := by
  induction os with
  | nil => rfl
  | cons o os ih =>
    cases o with
    | ok rs =>
      have he : (errorOf (CallOutcome.ok rs)).isNone = true := rfl
      rw [List.filter_cons]
      simp only [he, if_true, List.filterMap_cons, ih]
    | error msg =>
      have he : (errorOf (CallOutcome.error msg)).isNone = false := rfl
      have ho : overwriteOf (CallOutcome.error msg) = none := rfl
      rw [List.filter_cons]
      simp only [he, List.filterMap_cons, ho]
      exact ih

theorem lastOverwrite_succeeded (v : Nat) (os : List CallOutcome) :
    lastOverwrite v (os.filter fun o => (errorOf o).isNone) = lastOverwrite v os := by
  unfold lastOverwrite
  rw [filterMap_overwriteOf_succeeded]

/-- C4: a callback that raises an error does not abort `InternalCallMemoryCallback`.  Whatever
the outcomes of the calls, every matching entry of the slot is invoked, in order; what is passed
to `Log` is exactly the error messages of the failing calls, in order; and the value left in
`value` is the one left by the last overwrite among the calls that succeeded, so a failing call
changes nothing and the calls after it still overwrite.  For instance, with three matching
entries of which the first fails with `msg`, the second returns the integer `a` and the third the
integer `b`: the three are invoked, `msg` is logged, and the final value is `b mod 256`. -/
theorem C4_failing_callback_does_not_abort :
    (∀ (σ : Type) (I : Interp σ) (ctx : LuaScriptingContext σ) (addr value : Nat)
        (type_ : CallbackType) (cpuType : Nat),
      let r := InternalCallMemoryCallback I ctx addr value type_ cpuType
      let calls := pcallsOf (r.1.lua.events.drop ctx.lua.events.length)
      calls.map ProtectedCall.callee =
        ((ctx.callbacks type_).filter (matchesAccess addr cpuType)).map
          (fun callback => LuaValue.registryObject callback.Reference) ∧
      r.1.log = ctx.log ++ (calls.filterMap fun c => errorOf c.outcome).map some ∧
      r.2 = lastOverwrite value
        ((calls.map ProtectedCall.outcome).filter fun o => (errorOf o).isNone)) ∧
    (∀ (σ : Type) (I : Interp σ) (ctx : LuaScriptingContext σ) (addr value : Nat)
        (type_ : CallbackType) (cpuType : Nat) (e1 e2 e3 : MemoryCallback) (s1 s2 s3 : σ)
        (msg : String) (a b : Int),
      ctx.callbacks type_ = [e1, e2, e3] →
      matchesAccess addr cpuType e1 = true →
      matchesAccess addr cpuType e2 = true →
      matchesAccess addr cpuType e3 = true →
      I.call ctx.lua.script (LuaValue.registryObject e1.Reference)
        [LuaValue.integer addr, LuaValue.integer value] = (s1, CallOutcome.error msg) →
      I.call s1 (LuaValue.registryObject e2.Reference)
        [LuaValue.integer addr, LuaValue.integer value] =
          (s2, CallOutcome.ok [LuaValue.integer a]) →
      I.call s2 (LuaValue.registryObject e3.Reference)
        [LuaValue.integer addr, LuaValue.integer ((a % 256).toNat : Nat)] =
          (s3, CallOutcome.ok [LuaValue.integer b]) →
      let r := InternalCallMemoryCallback I ctx addr value type_ cpuType
      pcallsOf (r.1.lua.events.drop ctx.lua.events.length) =
        [{ callee := LuaValue.registryObject e1.Reference,
           args := [LuaValue.integer addr, LuaValue.integer value],
           outcome := CallOutcome.error msg },
         { callee := LuaValue.registryObject e2.Reference,
           args := [LuaValue.integer addr, LuaValue.integer value],
           outcome := CallOutcome.ok [LuaValue.integer a] },
         { callee := LuaValue.registryObject e3.Reference,
           args := [LuaValue.integer addr, LuaValue.integer ((a % 256).toNat : Nat)],
           outcome := CallOutcome.ok [LuaValue.integer b] }] ∧
      r.1.log = ctx.log ++ [some msg] ∧
      r.2 = (b % 256).toNat) := by
  constructor
  · intro σ I ctx addr value type_ cpuType r calls
    have hcalls : calls = chainCalls I addr
        ((ctx.callbacks type_).filter (matchesAccess addr cpuType)) ctx.lua.script value :=
      dispatch_calls I ctx addr value type_ cpuType
    obtain ⟨-, -, h3, h4⟩ := dispatch_spec I ctx addr value type_ cpuType
    clear_value calls
    subst hcalls
    refine ⟨chainCalls_callee I addr _ _ _, h3, ?_⟩
    rw [lastOverwrite_succeeded, ← chainValue_eq]
    exact h4
  · intro σ I ctx addr value type_ cpuType e1 e2 e3 s1 s2 s3 msg a b hslot hm1 hm2 hm3
      hc1 hc2 hc3 r
    have hcalls := dispatch_calls I ctx addr value type_ cpuType
    obtain ⟨-, -, h3, h4⟩ := dispatch_spec I ctx addr value type_ cpuType
    have hova : overwriteOf (CallOutcome.ok [LuaValue.integer a]) = some (a % 256).toNat := by
      simp [overwriteOf, toUInt8_toInt32]
    have hovb : overwriteOf (CallOutcome.ok [LuaValue.integer b]) = some (b % 256).toNat := by
      simp [overwriteOf, toUInt8_toInt32]
    have hove : overwriteOf (CallOutcome.error msg) = none := rfl
    have hchain : chainCalls I addr
        ((ctx.callbacks type_).filter (matchesAccess addr cpuType)) ctx.lua.script value =
        [{ callee := LuaValue.registryObject e1.Reference,
           args := [LuaValue.integer addr, LuaValue.integer value],
           outcome := CallOutcome.error msg },
         { callee := LuaValue.registryObject e2.Reference,
           args := [LuaValue.integer addr, LuaValue.integer value],
           outcome := CallOutcome.ok [LuaValue.integer a] },
         { callee := LuaValue.registryObject e3.Reference,
           args := [LuaValue.integer addr, LuaValue.integer ((a % 256).toNat : Nat)],
           outcome := CallOutcome.ok [LuaValue.integer b] }] := by
      rw [hslot]
      simp only [List.filter_cons, hm1, hm2, hm3, if_true, List.filter_nil, chainCalls]
      simp only [hc1, hove, Option.getD_none, hc2, hova, Option.getD_some, hc3]
    refine ⟨?_, ?_, ?_⟩
    · rw [hcalls, hchain]
    · show (InternalCallMemoryCallback I ctx addr value type_ cpuType).1.log = _
      rw [h3, hchain]
      simp [errorOf]
    · show (InternalCallMemoryCallback I ctx addr value type_ cpuType).2 = _
      rw [h4, hslot]
      simp only [List.filter_cons, hm1, hm2, hm3, if_true, List.filter_nil, chainValue]
      simp only [hc1, hove, Option.getD_none, hc2, hova, Option.getD_some, hc3, hovb]

/-- C4 at a concrete input: on `demoFaulty` the first entry fails, the second and third still run
and the final value is the result of the third. -/
theorem C4_failing_callback_does_not_abort_witness :
    pcallsOf ((InternalCallMemoryCallback demoInterp demoFaulty 16 7 CallbackType.CpuWrite
        0).1.lua.events.drop demoFaulty.lua.events.length) =
      [{ callee := LuaValue.registryObject 3,
         args := [LuaValue.integer 16, LuaValue.integer 7],
         outcome := CallOutcome.error "boom" },
       { callee := LuaValue.registryObject 6,
         args := [LuaValue.integer 16, LuaValue.integer 7],
         outcome := CallOutcome.ok [LuaValue.integer 300] },
       { callee := LuaValue.registryObject 1,
         args := [LuaValue.integer 16, LuaValue.integer 44],
         outcome := CallOutcome.ok [LuaValue.integer 5] }] ∧
    (InternalCallMemoryCallback demoInterp demoFaulty 16 7 CallbackType.CpuWrite 0).1.log =
      demoFaulty.log ++ [some "boom"] ∧
    (InternalCallMemoryCallback demoInterp demoFaulty 16 7 CallbackType.CpuWrite 0).2 = 5 :=
  C4_failing_callback_does_not_abort.2 Nat demoInterp demoFaulty 16 7 CallbackType.CpuWrite 0
    ⟨16, 16, 0, 3⟩ ⟨0, 32, 0, 6⟩ ⟨16, 20, 0, 1⟩ 1 2 3 "boom" 300 5
    rfl (by decide) (by decide) (by decide) rfl rfl rfl

/-! ## Memory dispatch: balance of the interpreter stack -/

theorem length_filterMap_errorOf (cs : List ProtectedCall) :
    (cs.filterMap fun c => errorOf c.outcome).length =
      (cs.filter fun c => (errorOf c.outcome).isSome).length := by
  induction cs with
  | nil => rfl
  | cons c cs ih =>
    rcases h : errorOf c.outcome with _ | m
    · simp [List.filterMap_cons, List.filter_cons, h, ih]
    · simp [List.filterMap_cons, List.filter_cons, h, ih]

/-- C10: stack balance of the memory dispatch.  On return of `InternalCallMemoryCallback` the
interpreter stack is the stack on entry followed by the error messages of the failing calls, so
its height is the height on entry plus the number of matching callbacks whose invocation raised
an error, and it is the height on entry exactly when none failed.  For one matching callback: a
succeeding invocation leaves the stack as it was before it, a failing one leaves its error
message on top. -/
theorem C10_stack_balance :
    (∀ (σ : Type) (I : Interp σ) (ctx : LuaScriptingContext σ) (addr value : Nat)
        (type_ : CallbackType) (cpuType : Nat),
      let r := InternalCallMemoryCallback I ctx addr value type_ cpuType
      let calls := pcallsOf (r.1.lua.events.drop ctx.lua.events.length)
      let failed := calls.filter fun c => (errorOf c.outcome).isSome
      r.1.lua.stack =
        ctx.lua.stack ++ (calls.filterMap fun c => errorOf c.outcome).map LuaValue.str ∧
      lua_gettop r.1.lua = lua_gettop ctx.lua + failed.length ∧
      (lua_gettop r.1.lua = lua_gettop ctx.lua ↔ failed = [])) ∧
    (∀ (σ : Type) (I : Interp σ) (addr cpuType : Nat) (callback : MemoryCallback)
        (st : LuaScriptingContext σ × Nat),
      matchesAccess addr cpuType callback = true →
      (∀ (s : σ) (rs : List LuaValue),
        I.call st.1.lua.script (LuaValue.registryObject callback.Reference)
          [LuaValue.integer addr, LuaValue.integer st.2] = (s, CallOutcome.ok rs) →
        (memoryCallbackBody I addr cpuType callback st).1.lua.stack = st.1.lua.stack) ∧
      (∀ (s : σ) (msg : String),
        I.call st.1.lua.script (LuaValue.registryObject callback.Reference)
          [LuaValue.integer addr, LuaValue.integer st.2] = (s, CallOutcome.error msg) →
        (memoryCallbackBody I addr cpuType callback st).1.lua.stack =
          st.1.lua.stack ++ [LuaValue.str msg])) := by
  constructor
  · intro σ I ctx addr value type_ cpuType r calls failed
    have hcalls : calls = chainCalls I addr
        ((ctx.callbacks type_).filter (matchesAccess addr cpuType)) ctx.lua.script value :=
      dispatch_calls I ctx addr value type_ cpuType
    obtain ⟨-, h2, -, -⟩ := dispatch_spec I ctx addr value type_ cpuType
    have hstack : r.1.lua.stack =
        ctx.lua.stack ++ (calls.filterMap fun c => errorOf c.outcome).map LuaValue.str := by
      rw [hcalls]; exact h2
    have hlen : lua_gettop r.1.lua = lua_gettop ctx.lua + failed.length := by
      simp only [lua_gettop, hstack, List.length_append, List.length_map,
        length_filterMap_errorOf]
    refine ⟨hstack, hlen, ?_⟩
    rw [hlen]
    constructor
    · intro h
      exact List.length_eq_zero.mp (by omega)
    · intro h
      rw [h]; rfl
  · intro σ I addr cpuType callback st hm
    constructor
    · intro s rs hc
      rw [body_call I addr cpuType callback st hm]
      simp only [hc, afterCall]
    · intro s msg hc
      rw [body_call I addr cpuType callback st hm]
      simp only [hc, afterCall]

/-- C10 at a concrete input: the failing entry of `demoFaulty` leaves `"boom"` on the stack, a
succeeding one leaves the stack as it was. -/
theorem C10_stack_balance_witness :
    (memoryCallbackBody demoInterp 16 0 ⟨16, 16, 0, 3⟩ (demoFaulty, 7)).1.lua.stack =
      demoFaulty.lua.stack ++ [LuaValue.str "boom"] ∧
    (memoryCallbackBody demoInterp 16 0 ⟨0, 32, 0, 6⟩ (demoFaulty, 7)).1.lua.stack =
      demoFaulty.lua.stack :=
  ⟨(C10_stack_balance.2 Nat demoInterp 16 0 ⟨16, 16, 0, 3⟩ (demoFaulty, 7) (by decide)).2
      1 "boom" rfl,
   (C10_stack_balance.2 Nat demoInterp 16 0 ⟨0, 32, 0, 6⟩ (demoFaulty, 7) (by decide)).1
      1 [LuaValue.integer 300] rfl⟩

/-! ## Destructor: every stored reference is released once, before `lua_close` -/

theorem mem_emplace (refs : List Int) (x h : Int) : h ∈ emplace refs x ↔ h ∈ refs ∨ h = x := by
  unfold emplace
  by_cases hx : x ∈ refs
  · simp only [if_pos hx]
    constructor
    · intro hh; exact Or.inl hh
    · rintro (hh | hh)
      · exact hh
      · rw [hh]; exact hx
  · simp [if_neg hx]

theorem nodup_emplace (refs : List Int) (x : Int) (hn : refs.Nodup) : (emplace refs x).Nodup := by
  unfold emplace
  by_cases hx : x ∈ refs
  · simpa [if_pos hx] using hn
  · rw [if_neg hx]
    exact List.Nodup.append hn (List.nodup_singleton x) (by simpa using hx)

theorem mem_foldl_emplace (xs : List Int) :
    ∀ (refs : List Int) (h : Int), h ∈ xs.foldl emplace refs ↔ h ∈ refs ∨ h ∈ xs := by
  induction xs with
  | nil => intro refs h; simp
  | cons x xs ih =>
    intro refs h
    simp only [List.foldl_cons, ih, mem_emplace, List.mem_cons]
    tauto

theorem nodup_foldl_emplace (xs : List Int) :
    ∀ refs : List Int, refs.Nodup → (xs.foldl emplace refs).Nodup := by
  induction xs with
  | nil => intro refs hn; simpa using hn
  | cons x xs ih =>
    intro refs hn
    exact ih _ (nodup_emplace refs x hn)

theorem foldl_emplace_reference (cbs : List MemoryCallback) (refs : List Int) :
    cbs.foldl (fun refs callback => emplace refs callback.Reference) refs =
      (cbs.map MemoryCallback.Reference).foldl emplace refs := by
  rw [List.foldl_map]

theorem mem_foldl_slots {ι : Type} (slot : ι → List Int) (is : List ι) :
    ∀ (refs : List Int) (h : Int),
      h ∈ is.foldl (fun refs i => (slot i).foldl emplace refs) refs ↔
        h ∈ refs ∨ ∃ i ∈ is, h ∈ slot i := by
  induction is with
  | nil => intro refs h; simp
  | cons i is ih =>
    intro refs h
    simp only [List.foldl_cons, ih, mem_foldl_emplace, List.mem_cons, exists_eq_or_imp]
    tauto

theorem nodup_foldl_slots {ι : Type} (slot : ι → List Int) (is : List ι) :
    ∀ refs : List Int, refs.Nodup →
      (is.foldl (fun refs i => (slot i).foldl emplace refs) refs).Nodup := by
  induction is with
  | nil => intro refs hn; simpa using hn
  | cons i is ih =>
    intro refs hn
    exact ih _ (nodup_foldl_emplace _ _ hn)

theorem collectMemoryReferences_eq (ctx : LuaScriptingContext σ) (refs : List Int) :
    collectMemoryReferences ctx refs =
      [CallbackType.CpuRead, CallbackType.CpuWrite, CallbackType.CpuExec].foldl
        (fun refs i => ((ctx.callbacks i).map MemoryCallback.Reference).foldl emplace refs)
        refs := by
  simp only [collectMemoryReferences, foldl_emplace_reference]

theorem mem_collectMemoryReferences (ctx : LuaScriptingContext σ) (refs : List Int) (h : Int) :
    h ∈ collectMemoryReferences ctx refs ↔
      h ∈ refs ∨ ∃ (t : CallbackType) (callback : MemoryCallback),
        callback ∈ ctx.callbacks t ∧ callback.Reference = h := by
  rw [collectMemoryReferences_eq, mem_foldl_slots]
  constructor
  · rintro (hh | ⟨t, -, ht⟩)
    · exact Or.inl hh
    · obtain ⟨cb, hcb, hr⟩ := List.mem_map.mp ht
      exact Or.inr ⟨t, cb, hcb, hr⟩
  · rintro (hh | ⟨t, cb, hcb, hr⟩)
    · exact Or.inl hh
    · refine Or.inr ⟨t, ?_, List.mem_map.mpr ⟨cb, hcb, hr⟩⟩
      cases t <;> simp

theorem mem_collectEventReferences (E : EventTypeDecl) (ctx : LuaScriptingContext σ)
    (refs : List Int) (h : Int) :
    h ∈ collectEventReferences E ctx refs ↔
      h ∈ refs ∨ ∃ i, E.Reset ≤ i ∧ i < E.EventTypeSize ∧ h ∈ ctx.eventCallbacks i := by
  unfold collectEventReferences
  rw [mem_foldl_slots]
  constructor
  · rintro (hh | ⟨i, hi, hm⟩)
    · exact Or.inl hh
    · rw [List.mem_range'_1] at hi
      exact Or.inr ⟨i, hi.1, by omega, hm⟩
  · rintro (hh | ⟨i, h1, h2, hm⟩)
    · exact Or.inl hh
    · refine Or.inr ⟨i, ?_, hm⟩
      rw [List.mem_range'_1]
      omega

theorem events_foldl_unref (refs : List Int) :
    ∀ L : LuaState σ, (refs.foldl luaL_unref L).events = L.events ++ refs.map LuaEvent.unref := by
  induction refs with
  | nil => intro L; simp
  | cons x xs ih => intro L; simp [List.foldl_cons, ih, luaL_unref]

/-- The references swept by the destructor. -/
theorem destroy_spec (E : EventTypeDecl) (ctx : LuaScriptingContext σ)
    (hloaded : ctx.loaded = true) :
    ∃ refs : List Int,
      (destroy E ctx).lua.events =
        ctx.lua.events ++ refs.map LuaEvent.unref ++ [LuaEvent.close] ∧
      refs.Nodup ∧
      ∀ h : Int, h ∈ refs ↔
        (∃ (t : CallbackType) (callback : MemoryCallback),
          callback ∈ ctx.callbacks t ∧ callback.Reference = h) ∨
        (∃ i, E.Reset ≤ i ∧ i < E.EventTypeSize ∧ h ∈ ctx.eventCallbacks i) := by
  refine ⟨collectEventReferences E ctx (collectMemoryReferences ctx []), ?_, ?_, ?_⟩
  · simp only [destroy, hloaded, if_true, lua_close, events_foldl_unref]
  · unfold collectEventReferences
    apply nodup_foldl_slots
    rw [collectMemoryReferences_eq]
    apply nodup_foldl_slots
    exact List.nodup_nil
  · intro h
    rw [mem_collectEventReferences, mem_collectMemoryReferences]
    simp

theorem unrefsOf_append (xs ys : List LuaEvent) :
    unrefsOf (xs ++ ys) = unrefsOf xs ++ unrefsOf ys := by
  simp [unrefsOf, List.filterMap_append]

theorem unrefsOf_map_unref (refs : List Int) : unrefsOf (refs.map LuaEvent.unref) = refs := by
  induction refs with
  | nil => rfl
  | cons x xs ih =>
    simp only [unrefsOf] at ih
    simp [unrefsOf, List.filterMap_cons, ih]

/-- Unregistering an entry and then destroying the context: the entry is erased from its slot,
its reference is released by the unregister call, and the destructor then releases every
reference still stored, the unregistered one included when another entry carries it. -/
theorem unregister_then_destroy_spec (E : EventTypeDecl) (ctx : LuaScriptingContext σ)
    (t : CallbackType) (entry : MemoryCallback) (hloaded : ctx.loaded = true) :
    (UnregisterMemoryCallback ctx t entry.StartAddress entry.EndAddress entry.Type_
        entry.Reference).callbacks t = (ctx.callbacks t).erase entry ∧
    (UnregisterMemoryCallback ctx t entry.StartAddress entry.EndAddress entry.Type_
        entry.Reference).lua.events = ctx.lua.events ++ [LuaEvent.unref entry.Reference] ∧
    ∃ refs : List Int,
      (destroy E (UnregisterMemoryCallback ctx t entry.StartAddress entry.EndAddress entry.Type_
          entry.Reference)).lua.events =
        ctx.lua.events ++ [LuaEvent.unref entry.Reference] ++ refs.map LuaEvent.unref ++
          [LuaEvent.close] ∧
      (refs.count entry.Reference = 1 ↔
        (∃ (u : CallbackType) (callback : MemoryCallback),
          callback ∈ (UnregisterMemoryCallback ctx t entry.StartAddress entry.EndAddress
            entry.Type_ entry.Reference).callbacks u ∧ callback.Reference = entry.Reference) ∨
        (∃ i, E.Reset ≤ i ∧ i < E.EventTypeSize ∧ entry.Reference ∈ ctx.eventCallbacks i)) ∧
      (refs.count entry.Reference = 0 ∨ refs.count entry.Reference = 1) := by
  have hcb : (UnregisterMemoryCallback ctx t entry.StartAddress entry.EndAddress entry.Type_
      entry.Reference).callbacks t = (ctx.callbacks t).erase entry := by
    simp [UnregisterMemoryCallback, ScriptingContext_UnregisterMemoryCallback]
  have hev : (UnregisterMemoryCallback ctx t entry.StartAddress entry.EndAddress entry.Type_
      entry.Reference).lua.events = ctx.lua.events ++ [LuaEvent.unref entry.Reference] := by
    simp [UnregisterMemoryCallback, ScriptingContext_UnregisterMemoryCallback, luaL_unref]
  refine ⟨hcb, hev, ?_⟩
  obtain ⟨refs, hd, hnd, hmem⟩ := destroy_spec E
    (UnregisterMemoryCallback ctx t entry.StartAddress entry.EndAddress entry.Type_
      entry.Reference) (by simpa [UnregisterMemoryCallback,
        ScriptingContext_UnregisterMemoryCallback] using hloaded)
  refine ⟨refs, ?_, ?_, ?_⟩
  · rw [hd, hev]
  · have hle := List.nodup_iff_count_le_one.mp hnd entry.Reference
    have hm := hmem entry.Reference
    have hev2 : (UnregisterMemoryCallback ctx t entry.StartAddress entry.EndAddress entry.Type_
        entry.Reference).eventCallbacks = ctx.eventCallbacks := rfl
    rw [hev2] at hm
    rw [← hm]
    constructor
    · intro h1
      exact List.count_pos_iff.mp (by omega)
    · intro h1
      exact List.count_eq_one_of_mem hnd h1
  · have := List.nodup_iff_count_le_one.mp hnd entry.Reference
    omega

/-- C6, evaluated on a registry in which two `CpuWrite` entries (and an event slot) carry the
reference `7`: after `UnregisterMemoryCallback` for the first entry the second entry is still
registered, the reference has been released once, and the destructor releases it again, twice
in total; likewise after `UnregisterEventCallback` for the event entry. -/
theorem C6_unregister_then_teardown_releases_twice (E : EventTypeDecl) :
    (UnregisterMemoryCallback demoAliased CallbackType.CpuWrite 16 16 0 7).callbacks
        CallbackType.CpuWrite = [⟨32, 32, 0, 7⟩] ∧
    (unrefsOf (UnregisterMemoryCallback demoAliased CallbackType.CpuWrite 16 16 0
        7).lua.events).count 7 = 1 ∧
    (unrefsOf (destroy E (UnregisterMemoryCallback demoAliased CallbackType.CpuWrite 16 16 0
        7)).lua.events).count 7 = 2 ∧
    (unrefsOf (destroy E (UnregisterEventCallback demoAliased 0 7)).lua.events).count 7 = 2 := by
  refine ⟨by decide, by decide, ?_, ?_⟩
  · obtain ⟨refs, hev, hnd, hmem⟩ := destroy_spec E
      (UnregisterMemoryCallback demoAliased CallbackType.CpuWrite 16 16 0 7) rfl
    have h7 : refs.count 7 = 1 :=
      List.count_eq_one_of_mem hnd
        ((hmem 7).mpr (Or.inl ⟨CallbackType.CpuWrite, ⟨32, 32, 0, 7⟩, by decide, rfl⟩))
    have hold : unrefsOf (UnregisterMemoryCallback demoAliased CallbackType.CpuWrite 16 16 0
        7).lua.events = [7] := by decide
    rw [hev, unrefsOf_append, unrefsOf_append, unrefsOf_map_unref, hold]
    simp [unrefsOf, h7]
  · obtain ⟨refs, hev, hnd, hmem⟩ := destroy_spec E (UnregisterEventCallback demoAliased 0 7) rfl
    have h7 : refs.count 7 = 1 :=
      List.count_eq_one_of_mem hnd
        ((hmem 7).mpr (Or.inl ⟨CallbackType.CpuWrite, ⟨32, 32, 0, 7⟩, by decide, rfl⟩))
    have hold : unrefsOf (UnregisterEventCallback demoAliased 0 7).lua.events = [7] := by decide
    rw [hev, unrefsOf_append, unrefsOf_append, unrefsOf_map_unref, hold]
    simp [unrefsOf, h7]

/-! ## Sandbox: the capability surface depends on the policy alone -/

theorem lua_pop_requiref (L : LuaState σ) (name : String) (opener : LibOpener) :
    lua_pop (luaL_requiref L name opener) 1 =
      { L with events := L.events ++ [LuaEvent.requiref name opener] } := by
  simp [lua_pop, luaL_requiref]

theorem LuaOpenLibs_allowed (L : LuaState σ) :
    LuaOpenLibs L true =
      { L with events := L.events ++
          [LuaEvent.requiref "_G" LibOpener.luaopen_base,
           LuaEvent.requiref "package" LibOpener.luaopen_package,
           LuaEvent.requiref "coroutine" LibOpener.luaopen_coroutine,
           LuaEvent.requiref "table" LibOpener.luaopen_table,
           LuaEvent.requiref "io" LibOpener.luaopen_io,
           LuaEvent.requiref "os" LibOpener.luaopen_os,
           LuaEvent.requiref "string" LibOpener.luaopen_string,
           LuaEvent.requiref "math" LibOpener.luaopen_math,
           LuaEvent.requiref "utf8" LibOpener.luaopen_utf8,
           LuaEvent.requiref "debug" LibOpener.luaopen_debug] } := by
  simp [LuaOpenLibs, loadedlibs, lua_pop_requiref, LUA_LOADLIBNAME, LUA_COLIBNAME,
    LUA_TABLIBNAME, LUA_IOLIBNAME, LUA_OSLIBNAME, LUA_STRLIBNAME, LUA_MATHLIBNAME,
    LUA_UTF8LIBNAME, LUA_DBLIBNAME]

theorem LuaOpenLibs_sandboxed (L : LuaState σ) :
    LuaOpenLibs L false =
      { L with events := L.events ++
          [LuaEvent.requiref "_G" LibOpener.luaopen_base,
           LuaEvent.requiref "coroutine" LibOpener.luaopen_coroutine,
           LuaEvent.requiref "table" LibOpener.luaopen_table,
           LuaEvent.requiref "string" LibOpener.luaopen_string,
           LuaEvent.requiref "math" LibOpener.luaopen_math,
           LuaEvent.requiref "utf8" LibOpener.luaopen_utf8,
           LuaEvent.requiref "debug" LibOpener.luaopen_debug] } := by
  simp [LuaOpenLibs, loadedlibs, lua_pop_requiref, LUA_LOADLIBNAME, LUA_COLIBNAME,
    LUA_TABLIBNAME, LUA_IOLIBNAME, LUA_OSLIBNAME, LUA_STRLIBNAME, LUA_MATHLIBNAME,
    LUA_UTF8LIBNAME, LUA_DBLIBNAME]

theorem LoadScript_setup (I : Interp σ) (config : DebugConfig) (s : σ)
    (ctx : LuaScriptingContext σ) (scriptName scriptContent : String) :
    ∃ tail : List LuaEvent,
      (LoadScript I config s ctx scriptName scriptContent).1.lua.events =
        (LuaOpenLibs (luaL_newstate s) config.ScriptAllowIoOsAccess).events ++
        (if config.ScriptAllowIoOsAccess && config.ScriptAllowNetworkAccess then
          [LuaEvent.setfield (LuaValue.table "package.preload") "socket.core"
             (LuaValue.cfunction LibOpener.luaopen_socket_core),
           LuaEvent.setfield (LuaValue.table "package.preload") "mime.core"
             (LuaValue.cfunction LibOpener.luaopen_mime_core)]
         else []) ++
        [LuaEvent.requiref "emu" LibOpener.LuaApi_GetLibrary] ++ tail ∧
      requirefsOf tail = [] ∧ setfieldsOf tail = [] ∧
      (LoadScript I config s ctx scriptName scriptContent).1.sandboxAllowLoadfile =
        (if config.ScriptAllowIoOsAccess then 1 else 0) := by
  obtain ⟨timeout, allowIo, allowNet⟩ := config
  rcases hcomp : I.compile scriptContent ("@" ++ scriptName) with msg | chunk
  · refine ⟨[], ?_, rfl, rfl, ?_⟩
    · cases allowIo <;> cases allowNet <;>
        simp [LoadScript, hcomp, lua_push, lua_top, lua_isstring, luaL_requiref, lua_getglobal,
          lua_getfield_top, lua_pushcfunction, lua_setfield_below, lua_pop, LuaOpenLibs_allowed,
          LuaOpenLibs_sandboxed, luaL_newstate]
    · cases allowIo <;> cases allowNet <;>
        simp [LoadScript, hcomp, lua_push, lua_top, lua_isstring]
  · rcases hcall : I.call s chunk [] with ⟨s1, o⟩
    refine ⟨[LuaEvent.sethook 1000, LuaEvent.pcall chunk [] o], ?_, rfl, rfl, ?_⟩
    · cases o <;> cases allowIo <;> cases allowNet <;>
        simp [LoadScript, hcomp, hcall, lua_pcall, lua_sethook, lua_push, lua_top, lua_isstring,
          luaL_requiref, lua_getglobal, lua_getfield_top, lua_pushcfunction, lua_setfield_below,
          lua_pop, LuaOpenLibs_allowed, LuaOpenLibs_sandboxed, luaL_newstate, adjustResults]
    · cases o <;> cases allowIo <;> cases allowNet <;>
        simp [LoadScript, hcomp, hcall, lua_pcall, lua_sethook, lua_push, lua_top, lua_isstring,
          luaL_requiref, lua_getglobal, lua_getfield_top, lua_pushcfunction, lua_setfield_below,
          lua_pop, LuaOpenLibs_allowed, LuaOpenLibs_sandboxed, luaL_newstate, adjustResults]

theorem requirefsOf_append (xs ys : List LuaEvent) :
    requirefsOf (xs ++ ys) = requirefsOf xs ++ requirefsOf ys := by
  simp [requirefsOf, List.filterMap_append]

theorem setfieldsOf_append (xs ys : List LuaEvent) :
    setfieldsOf (xs ++ ys) = setfieldsOf xs ++ setfieldsOf ys := by
  simp [setfieldsOf, List.filter_append]

theorem LuaOpenLibs_requirefs (config : DebugConfig) (L : LuaState σ) :
    requirefsOf ((LuaOpenLibs L config.ScriptAllowIoOsAccess).events.drop L.events.length) =
      (if config.ScriptAllowIoOsAccess then
        [("_G", LibOpener.luaopen_base), ("package", LibOpener.luaopen_package),
         ("coroutine", LibOpener.luaopen_coroutine), ("table", LibOpener.luaopen_table),
         ("io", LibOpener.luaopen_io), ("os", LibOpener.luaopen_os),
         ("string", LibOpener.luaopen_string), ("math", LibOpener.luaopen_math),
         ("utf8", LibOpener.luaopen_utf8), ("debug", LibOpener.luaopen_debug)]
       else
        [("_G", LibOpener.luaopen_base), ("coroutine", LibOpener.luaopen_coroutine),
         ("table", LibOpener.luaopen_table), ("string", LibOpener.luaopen_string),
         ("math", LibOpener.luaopen_math), ("utf8", LibOpener.luaopen_utf8),
         ("debug", LibOpener.luaopen_debug)]) := by
  cases config.ScriptAllowIoOsAccess
  · rw [LuaOpenLibs_sandboxed]; simp [requirefsOf]
  · rw [LuaOpenLibs_allowed]; simp [requirefsOf]

theorem LoadScript_requirefs (I : Interp σ) (config : DebugConfig) (s : σ)
    (ctx : LuaScriptingContext σ) (scriptName scriptContent : String) :
    requirefsOf (LoadScript I config s ctx scriptName scriptContent).1.lua.events =
      (if config.ScriptAllowIoOsAccess then
        [("_G", LibOpener.luaopen_base), ("package", LibOpener.luaopen_package),
         ("coroutine", LibOpener.luaopen_coroutine), ("table", LibOpener.luaopen_table),
         ("io", LibOpener.luaopen_io), ("os", LibOpener.luaopen_os),
         ("string", LibOpener.luaopen_string), ("math", LibOpener.luaopen_math),
         ("utf8", LibOpener.luaopen_utf8), ("debug", LibOpener.luaopen_debug)]
       else
        [("_G", LibOpener.luaopen_base), ("coroutine", LibOpener.luaopen_coroutine),
         ("table", LibOpener.luaopen_table), ("string", LibOpener.luaopen_string),
         ("math", LibOpener.luaopen_math), ("utf8", LibOpener.luaopen_utf8),
         ("debug", LibOpener.luaopen_debug)]) ++ [("emu", LibOpener.LuaApi_GetLibrary)] := by
  obtain ⟨tail, hev, hreq, -, -⟩ := LoadScript_setup I config s ctx scriptName scriptContent
  rw [hev]
  simp only [requirefsOf_append, hreq, List.append_nil]
  cases config.ScriptAllowIoOsAccess <;> cases config.ScriptAllowNetworkAccess
  · rw [LuaOpenLibs_sandboxed]; simp [requirefsOf, luaL_newstate]
  · rw [LuaOpenLibs_sandboxed]; simp [requirefsOf, luaL_newstate]
  · rw [LuaOpenLibs_allowed]; simp [requirefsOf, luaL_newstate]
  · rw [LuaOpenLibs_allowed]; simp [requirefsOf, luaL_newstate]

theorem LoadScript_setfields (I : Interp σ) (config : DebugConfig) (s : σ)
    (ctx : LuaScriptingContext σ) (scriptName scriptContent : String) :
    setfieldsOf (LoadScript I config s ctx scriptName scriptContent).1.lua.events =
      (if config.ScriptAllowIoOsAccess && config.ScriptAllowNetworkAccess then
        [LuaEvent.setfield (LuaValue.table "package.preload") "socket.core"
           (LuaValue.cfunction LibOpener.luaopen_socket_core),
         LuaEvent.setfield (LuaValue.table "package.preload") "mime.core"
           (LuaValue.cfunction LibOpener.luaopen_mime_core)]
       else []) := by
  obtain ⟨tail, hev, -, hset, -⟩ := LoadScript_setup I config s ctx scriptName scriptContent
  rw [hev]
  simp only [setfieldsOf_append, hset, List.append_nil]
  cases config.ScriptAllowIoOsAccess <;> cases config.ScriptAllowNetworkAccess
  · rw [LuaOpenLibs_sandboxed]; simp [setfieldsOf, isSetfield, luaL_newstate]
  · rw [LuaOpenLibs_sandboxed]; simp [setfieldsOf, isSetfield, luaL_newstate]
  · rw [LuaOpenLibs_allowed]; simp [setfieldsOf, isSetfield, luaL_newstate]
  · rw [LuaOpenLibs_allowed]; simp [setfieldsOf, isSetfield, luaL_newstate]

/-- C7: the capability surface is determined by the policy alone.  For both values of
`allowIoOsAccess`, `LuaOpenLibs` loads base, coroutine, table, string, math, utf8 and debug, and
it loads io, os and package exactly when `allowIoOsAccess` is true; `LoadScript` loads these
libraries and `emu` and nothing else, sets `SANDBOX_ALLOW_LOADFILE` to `1` when
`allowIoOsAccess` is true and to `0` otherwise, and stores `socket.core` and `mime.core` in
`package.preload` exactly when `allowIoOsAccess` and `allowNetworkAccess` are both true. -/
theorem C7_capability_surface (I : Interp σ) (config : DebugConfig) (s : σ)
    (ctx : LuaScriptingContext σ) (scriptName scriptContent : String) (L : LuaState σ) :
    requirefsOf ((LuaOpenLibs L config.ScriptAllowIoOsAccess).events.drop L.events.length) =
      (if config.ScriptAllowIoOsAccess then
        [("_G", LibOpener.luaopen_base), ("package", LibOpener.luaopen_package),
         ("coroutine", LibOpener.luaopen_coroutine), ("table", LibOpener.luaopen_table),
         ("io", LibOpener.luaopen_io), ("os", LibOpener.luaopen_os),
         ("string", LibOpener.luaopen_string), ("math", LibOpener.luaopen_math),
         ("utf8", LibOpener.luaopen_utf8), ("debug", LibOpener.luaopen_debug)]
       else
        [("_G", LibOpener.luaopen_base), ("coroutine", LibOpener.luaopen_coroutine),
         ("table", LibOpener.luaopen_table), ("string", LibOpener.luaopen_string),
         ("math", LibOpener.luaopen_math), ("utf8", LibOpener.luaopen_utf8),
         ("debug", LibOpener.luaopen_debug)]) ∧
    requirefsOf (LoadScript I config s ctx scriptName scriptContent).1.lua.events =
      (if config.ScriptAllowIoOsAccess then
        [("_G", LibOpener.luaopen_base), ("package", LibOpener.luaopen_package),
         ("coroutine", LibOpener.luaopen_coroutine), ("table", LibOpener.luaopen_table),
         ("io", LibOpener.luaopen_io), ("os", LibOpener.luaopen_os),
         ("string", LibOpener.luaopen_string), ("math", LibOpener.luaopen_math),
         ("utf8", LibOpener.luaopen_utf8), ("debug", LibOpener.luaopen_debug)]
       else
        [("_G", LibOpener.luaopen_base), ("coroutine", LibOpener.luaopen_coroutine),
         ("table", LibOpener.luaopen_table), ("string", LibOpener.luaopen_string),
         ("math", LibOpener.luaopen_math), ("utf8", LibOpener.luaopen_utf8),
         ("debug", LibOpener.luaopen_debug)]) ++ [("emu", LibOpener.LuaApi_GetLibrary)] ∧
    (∀ lib ∈ [("io", LibOpener.luaopen_io), ("os", LibOpener.luaopen_os),
        ("package", LibOpener.luaopen_package)],
      lib ∈ requirefsOf (LoadScript I config s ctx scriptName scriptContent).1.lua.events ↔
        config.ScriptAllowIoOsAccess = true) ∧
    (LoadScript I config s ctx scriptName scriptContent).1.sandboxAllowLoadfile =
      (if config.ScriptAllowIoOsAccess then 1 else 0) ∧
    ((LoadScript I config s ctx scriptName scriptContent).1.sandboxAllowLoadfile = 1 ↔
      config.ScriptAllowIoOsAccess = true) ∧
    setfieldsOf (LoadScript I config s ctx scriptName scriptContent).1.lua.events =
      (if config.ScriptAllowIoOsAccess && config.ScriptAllowNetworkAccess then
        [LuaEvent.setfield (LuaValue.table "package.preload") "socket.core"
           (LuaValue.cfunction LibOpener.luaopen_socket_core),
         LuaEvent.setfield (LuaValue.table "package.preload") "mime.core"
           (LuaValue.cfunction LibOpener.luaopen_mime_core)]
       else []) ∧
    (∀ e ∈ [LuaEvent.setfield (LuaValue.table "package.preload") "socket.core"
              (LuaValue.cfunction LibOpener.luaopen_socket_core),
            LuaEvent.setfield (LuaValue.table "package.preload") "mime.core"
              (LuaValue.cfunction LibOpener.luaopen_mime_core)],
      e ∈ (LoadScript I config s ctx scriptName scriptContent).1.lua.events ↔
        (config.ScriptAllowIoOsAccess = true ∧ config.ScriptAllowNetworkAccess = true)) := by
  obtain ⟨tail, hev, hreq, hset, hsand⟩ :=
    LoadScript_setup I config s ctx scriptName scriptContent
  have hmemset : ∀ e : LuaEvent, e ∈ setfieldsOf
      (LoadScript I config s ctx scriptName scriptContent).1.lua.events →
      e ∈ (LoadScript I config s ctx scriptName scriptContent).1.lua.events := by
    intro e he
    exact (List.mem_filter.mp he).1
  have hsetmem : ∀ e : LuaEvent,
      e ∈ (LoadScript I config s ctx scriptName scriptContent).1.lua.events →
      isSetfield e = true →
      e ∈ setfieldsOf (LoadScript I config s ctx scriptName scriptContent).1.lua.events := by
    intro e he hp
    exact List.mem_filter.mpr ⟨he, hp⟩
  have h1 := LuaOpenLibs_requirefs config L
  have h2 := LoadScript_requirefs I config s ctx scriptName scriptContent
  have h3 := LoadScript_setfields I config s ctx scriptName scriptContent
  refine ⟨h1, h2, ?_, hsand, ?_, h3, ?_⟩
  · intro lib hlib
    rw [h2]
    cases config.ScriptAllowIoOsAccess <;> simp at hlib ⊢ <;>
      rcases hlib with rfl | rfl | rfl <;> simp
  · rw [hsand]
    cases config.ScriptAllowIoOsAccess <;> simp
  · intro e he
    constructor
    · intro hmem
      have hp : isSetfield e = true := by
        simp at he
        rcases he with rfl | rfl <;> rfl
      have := hsetmem e hmem hp
      rw [h3] at this
      cases hio : config.ScriptAllowIoOsAccess <;> cases hnet : config.ScriptAllowNetworkAccess <;>
        simp [hio, hnet] at this ⊢
    · rintro ⟨hio, hnet⟩
      apply hmemset
      rw [h3, hio, hnet]
      simpa using he


/-- C7 at a concrete input: network access allowed without file and OS access exposes neither the
socket primitives nor `io`, and disables `loadfile`. -/
theorem C7_capability_surface_witness :
    (LoadScript demoInterp ⟨1, false, true⟩ 0 demoChain "demo" "return").1.sandboxAllowLoadfile
      = 0 ∧
    setfieldsOf (LoadScript demoInterp ⟨1, false, true⟩ 0 demoChain "demo" "return").1.lua.events
      = [] ∧
    (("io", LibOpener.luaopen_io) ∈
      requirefsOf (LoadScript demoInterp ⟨1, false, true⟩ 0 demoChain "demo"
        "return").1.lua.events ↔ false = true) :=
  ⟨(C7_capability_surface demoInterp ⟨1, false, true⟩ 0 demoChain "demo" "return"
      (luaL_newstate 0)).2.2.2.1,
   (C7_capability_surface demoInterp ⟨1, false, true⟩ 0 demoChain "demo" "return"
      (luaL_newstate 0)).2.2.2.2.2.1,
   (C7_capability_surface demoInterp ⟨1, false, true⟩ 0 demoChain "demo" "return"
      (luaL_newstate 0)).2.2.1 ("io", LibOpener.luaopen_io) (by simp)⟩

/-! ## Watchdog -/

theorem ExecutionCountHook_raises_iff (config : DebugConfig) (elapsedMS : ℚ) :
    (ExecutionCountHook config elapsedMS).isSome = true ↔
      elapsedMS > (((config.ScriptTimeout % 4294967296 * 1000) % 4294967296 : Nat) : ℚ) := by
  unfold ExecutionCountHook
  by_cases h : elapsedMS > (((config.ScriptTimeout % 4294967296 * 1000) % 4294967296 : Nat) : ℚ)
  · simp [h]
  · simp [h]

/-- For budgets up to `4294967` seconds the product does not wrap, and the hook raises exactly
when the elapsed time exceeds the budget. -/
theorem ExecutionCountHook_exact_below_wrap (config : DebugConfig) (elapsedMS : ℚ)
    (hb : config.ScriptTimeout ≤ 4294967) :
    ExecutionCountHook config elapsedMS =
      if elapsedMS > (config.ScriptTimeout : ℚ) * 1000 then
        some ("Maximum execution time (" ++ toString config.ScriptTimeout ++
          " seconds) exceeded.")
      else none := by
  have h1 : config.ScriptTimeout % 4294967296 = config.ScriptTimeout :=
    Nat.mod_eq_of_lt (by omega)
  have h2 : (config.ScriptTimeout * 1000) % 4294967296 = config.ScriptTimeout * 1000 :=
    Nat.mod_eq_of_lt (by omega)
  unfold ExecutionCountHook
  simp only [h1, h2]
  push_cast
  rfl

/-- C8, evaluated at a budget whose product with `1000` wraps in `uint32_t`: with
`ScriptTimeout = 4294968` seconds and `705` milliseconds elapsed, far less than the budget, the
hook raises the error, whose message names a budget of `4294968` seconds. -/
theorem C8_hook_raises_before_budget_when_product_wraps :
    (4294968 : Nat) < 4294967296 ∧
    ¬ ((705 : ℚ) > (4294968 : ℚ) * 1000) ∧
    ExecutionCountHook ⟨4294968, false, false⟩ 705 =
      some "Maximum execution time (4294968 seconds) exceeded." := by
  refine ⟨by decide, by norm_num, ?_⟩
  have h : (705 : ℚ) > (((4294968 % 4294967296 * 1000) % 4294967296 : Nat) : ℚ) := by
    norm_num
  unfold ExecutionCountHook
  rw [if_pos h]
  rfl

/-! ## Event dispatch on an empty slot -/

/-- C9: when the slot of the event type holds no callback, `InternalCallEventCallback` returns
the count `0` and leaves the whole context as it was: no protected call is made, the timer is
not reset, no hook is installed and nothing is logged. -/
theorem C9_empty_event_slot_is_noop (I : Interp σ) (returnCount : LuaState σ → LuaState σ → Int)
    (ctx : LuaScriptingContext σ) (type_ : Nat) (hempty : ctx.eventCallbacks type_ = []) :
    InternalCallEventCallback I returnCount ctx type_ = (ctx, 0) ∧
    (InternalCallEventCallback I returnCount ctx type_).2 = 0 ∧
    (InternalCallEventCallback I returnCount ctx type_).1.lua.events = ctx.lua.events ∧
    (InternalCallEventCallback I returnCount ctx type_).1.lua.stack = ctx.lua.stack ∧
    (InternalCallEventCallback I returnCount ctx type_).1.lua.hookCount = ctx.lua.hookCount ∧
    (InternalCallEventCallback I returnCount ctx type_).1.timerResets = ctx.timerResets ∧
    (InternalCallEventCallback I returnCount ctx type_).1.log = ctx.log := by
  have h : InternalCallEventCallback I returnCount ctx type_ = (ctx, 0) := by
    simp [InternalCallEventCallback, hempty]
  rw [h]
  exact ⟨rfl, rfl, rfl, rfl, rfl, rfl, rfl⟩

/-- C9 at a concrete input: event slot `4` of `demoAliased` is empty. -/
theorem C9_empty_event_slot_is_noop_witness :
    (InternalCallEventCallback demoInterp (fun L0 L1 => (lua_gettop L1 : Int) - lua_gettop L0)
        demoAliased 4).2 = 0 ∧
    (InternalCallEventCallback demoInterp (fun L0 L1 => (lua_gettop L1 : Int) - lua_gettop L0)
        demoAliased 4).1.timerResets = demoAliased.timerResets ∧
    (InternalCallEventCallback demoInterp (fun L0 L1 => (lua_gettop L1 : Int) - lua_gettop L0)
        demoAliased 4).1.lua.events = demoAliased.lua.events :=
  ⟨(C9_empty_event_slot_is_noop demoInterp _ demoAliased 4 rfl).2.1,
   (C9_empty_event_slot_is_noop demoInterp _ demoAliased 4 rfl).2.2.2.2.2.1,
   (C9_empty_event_slot_is_noop demoInterp _ demoAliased 4 rfl).2.2.1⟩

/-- On a slot that holds callbacks the dispatcher does re-arm the watchdog and call them: the
two handlers of slot `0` of `demoAliased` are called, the timer is reset and the hook set. -/
theorem InternalCallEventCallback_nonempty_example :
    (InternalCallEventCallback demoInterp (fun _ _ => 0) demoAliased 0).1.lua.events =
      [LuaEvent.sethook 1000,
       LuaEvent.pcall (LuaValue.registryObject 7) [] (CallOutcome.ok []),
       LuaEvent.pcall (LuaValue.registryObject 9) [] (CallOutcome.ok [])] ∧
    (InternalCallEventCallback demoInterp (fun _ _ => 0) demoAliased 0).1.timerResets = 1 := by
  decide

end Mesen
